import Mathlib

/-!
Verification of the widget_wizard telemetry backend (C sources under src/).

The development shallowly embeds the parts of the program the claims are
about:

* the WebSocket connection-accounting state machine of `src/src/ws_server.c`
  (`ws_callback` cases `LWS_CALLBACK_FILTER_PROTOCOL_CONNECTION`,
  `LWS_CALLBACK_ESTABLISHED`, `LWS_CALLBACK_CLOSED`,
  `LWS_CALLBACK_WSI_DESTROY`);
* the bounded JSON response builders of `src/src/json_out.c`;
* the aggregate CPU sampling of `src/src/stats.c` (`read_cpu_stats`);
* the per-process monitor of `src/src/proc.c` (`read_process_stats`,
  `pid_matches_comm`, `find_pid_by_comm`);
* the inbound-command dispatch of `src/src/ws_server.c`
  (`LWS_CALLBACK_RECEIVE`).

C `unsigned int` counters are modelled as `Nat`; every decrement in the C
code is guarded by a positivity test, and the model reproduces those guards
verbatim.  C `double` arithmetic is modelled over `Rat`; the claims proved
about it are sign/bound/algebraic-identity claims that hold identically for
exact arithmetic.  The operating-system surface (`/proc` files, jansson,
libwebsockets event delivery) is modelled as explicit environment data that
the embedded functions consume.
-/

/-! ## Connection accounting (src/src/ws_server.c)

The per-process counters `ws_pending_client_count` and
`ws_connected_client_count` together with the per-session `counted` flag.
The transport (libwebsockets) delivers lifecycle events; the ghost fields
`admitted`, `establishedSet`, `closedSet`, `destroyedSet` record which
sessions have seen which events, and `Enabled` states the event-ordering
guarantees of the transport (a session is filtered once; ESTABLISHED only
after an accepted filter; CLOSED only after ESTABLISHED and before
WSI_DESTROY; WSI_DESTROY at most once and after everything else).
`c ∈ establishedSet` is exactly `pss->counted == true`: the code sets the
flag in `LWS_CALLBACK_ESTABLISHED` and never clears it. -/

/-- `MAX_WS_CONNECTED_CLIENTS` from src/src/ws_limits.h. -/
def MAX_WS_CONNECTED_CLIENTS : Nat := 10

/-- A connection-lifecycle event delivered to `ws_callback`, tagged with the
session (connection) it concerns. -/
inductive WsEvent where
  | filter (c : Nat)
  | established (c : Nat)
  | closed (c : Nat)
  | destroy (c : Nat)
deriving DecidableEq, Repr

/-- The session an event concerns. -/
def WsEvent.sid : WsEvent → Nat
  | .filter c => c
  | .established c => c
  | .closed c => c
  | .destroy c => c

/-- The two global counters of src/src/ws_server.c plus ghost bookkeeping of
which sessions have seen which lifecycle events. -/
structure WsState where
  ws_pending_client_count : Nat
  ws_connected_client_count : Nat
  admitted : Finset Nat
  establishedSet : Finset Nat
  closedSet : Finset Nat
  destroyedSet : Finset Nat
deriving DecidableEq

/-- Initial state: both counters zero, no sessions seen. -/
def ws_init : WsState :=
  { ws_pending_client_count := 0
    ws_connected_client_count := 0
    admitted := ∅
    establishedSet := ∅
    closedSet := ∅
    destroyedSet := ∅ }

/-- One invocation of `ws_callback` on a lifecycle event, translated from
src/src/ws_server.c:

* `FILTER_PROTOCOL_CONNECTION` (lines 280-291): reject (return -1, state
  unchanged) when `ws_connected_client_count + ws_pending_client_count >=
  MAX_WS_CONNECTED_CLIENTS`, else `ws_pending_client_count++`.
* `ESTABLISHED` (lines 115-136): `if (ws_pending_client_count > 0)
  ws_pending_client_count--;` then `ws_connected_client_count++;
  pss->counted = true;`.
* `CLOSED` (lines 264-278): `if (pss->counted) { if
  (ws_connected_client_count > 0) ws_connected_client_count--; }`.
* `WSI_DESTROY` (lines 333-350): `if (!pss->counted) { if
  (ws_pending_client_count > 0) ws_pending_client_count--; }`. -/
def ws_step (s : WsState) : WsEvent → WsState
  | .filter c =>
    if MAX_WS_CONNECTED_CLIENTS ≤ s.ws_connected_client_count + s.ws_pending_client_count then
      s
    else
      { s with
        ws_pending_client_count := s.ws_pending_client_count + 1
        admitted := insert c s.admitted }
  | .established c =>
    { s with
      ws_pending_client_count :=
        if 0 < s.ws_pending_client_count then s.ws_pending_client_count - 1
        else s.ws_pending_client_count
      ws_connected_client_count := s.ws_connected_client_count + 1
      establishedSet := insert c s.establishedSet }
  | .closed c =>
    if c ∈ s.establishedSet then
      { s with
        ws_connected_client_count :=
          if 0 < s.ws_connected_client_count then s.ws_connected_client_count - 1
          else s.ws_connected_client_count
        closedSet := insert c s.closedSet }
    else
      { s with closedSet := insert c s.closedSet }
  | .destroy c =>
    if c ∈ s.establishedSet then
      { s with destroyedSet := insert c s.destroyedSet }
    else
      { s with
        ws_pending_client_count :=
          if 0 < s.ws_pending_client_count then s.ws_pending_client_count - 1
          else s.ws_pending_client_count
        destroyedSet := insert c s.destroyedSet }

/-- Transport-side event-ordering guarantees (libwebsockets): which event may
fire next for a given session.  A session is filtered at most once and only
while fresh; ESTABLISHED requires an accepted filter and fires at most once;
CLOSED fires only for established sessions, at most once, before destroy;
WSI_DESTROY fires at most once, only for admitted sessions, and for
established sessions only after CLOSED. -/
def Enabled (s : WsState) : WsEvent → Prop
  | .filter c =>
    c ∉ s.admitted ∧ c ∉ s.establishedSet ∧ c ∉ s.closedSet ∧ c ∉ s.destroyedSet
  | .established c => c ∈ s.admitted ∧ c ∉ s.establishedSet ∧ c ∉ s.destroyedSet
  | .closed c => c ∈ s.establishedSet ∧ c ∉ s.closedSet ∧ c ∉ s.destroyedSet
  | .destroy c =>
    c ∈ s.admitted ∧ c ∉ s.destroyedSet ∧ (c ∈ s.establishedSet → c ∈ s.closedSet)

instance (s : WsState) (e : WsEvent) : Decidable (Enabled s e) := by
  cases e <;> (unfold Enabled; infer_instance)

/-- A well-formed event sequence: every event is enabled when it fires. -/
def WFTrace : WsState → List WsEvent → Prop
  | _, [] => True
  | s, e :: tr => Enabled s e ∧ WFTrace (ws_step s e) tr

instance instDecidableWFTrace : ∀ (s : WsState) (tr : List WsEvent), Decidable (WFTrace s tr)
  | _, [] => isTrue trivial
  | s, e :: tr =>
    have : Decidable (WFTrace (ws_step s e) tr) := instDecidableWFTrace (ws_step s e) tr
    inferInstanceAs (Decidable (_ ∧ _))

/-- Run the callback over a sequence of events. -/
def ws_run (s : WsState) (tr : List WsEvent) : WsState :=
  tr.foldl ws_step s

/-- Sessions currently holding a pending slot: admitted, not yet converted to
connected, not yet destroyed. -/
def pendingSet (s : WsState) : Finset Nat :=
  s.admitted \ (s.establishedSet ∪ s.destroyedSet)

/-- Sessions currently counted as connected: established and not yet closed. -/
def connectedSet (s : WsState) : Finset Nat :=
  s.establishedSet \ s.closedSet

/-- Inductive invariant for the accounting state machine: the counters equal
the cardinalities of their ghost sets, the ghost sets nest properly, and the
admission bound holds. -/
structure WsInv (s : WsState) : Prop where
  pending_eq : s.ws_pending_client_count = (pendingSet s).card
  connected_eq : s.ws_connected_client_count = (connectedSet s).card
  est_sub : s.establishedSet ⊆ s.admitted
  closed_sub : s.closedSet ⊆ s.establishedSet
  sum_le :
    s.ws_pending_client_count + s.ws_connected_client_count ≤ MAX_WS_CONNECTED_CLIENTS

/-- Whenever the code is about to run a guarded decrement, the counter it
will decrement is strictly positive (so the C `unsigned int` counters never
wrap below zero and the guards are never load-bearing). -/
def decrement_safe (s : WsState) : WsEvent → Prop
  | .filter _ => True
  | .established _ => 0 < s.ws_pending_client_count
  | .closed c => c ∈ s.establishedSet → 0 < s.ws_connected_client_count
  | .destroy c => c ∉ s.establishedSet → 0 < s.ws_pending_client_count

/-! ## C2: one releasing decrement per admitted connection

`ESTABLISHED` performs a paired `pending--`/`connected++`, transferring the
admitted session's slot from one counter to the other.  The two *releasing*
decrements — the ones that give the slot back — are `CLOSED` with
`pss->counted` set (decrements `ws_connected_client_count`) and
`WSI_DESTROY` with `pss->counted` unset (decrements
`ws_pending_client_count`).  The `counted` flag is the single-use token
deciding which of the two fires for a session. -/

/-- Number of events in `tr` (fired from `s`) that release session `c`'s slot
by decrementing `ws_pending_client_count`: `WSI_DESTROY` with `pss->counted`
unset. -/
def releasePendingCount (s : WsState) (c : Nat) : List WsEvent → Nat
  | [] => 0
  | e :: tr =>
    (if e = WsEvent.destroy c ∧ c ∉ s.establishedSet then 1 else 0)
      + releasePendingCount (ws_step s e) c tr

/-- Number of events in `tr` (fired from `s`) that release session `c`'s slot
by decrementing `ws_connected_client_count`: `CLOSED` with `pss->counted`
set. -/
def releaseConnectedCount (s : WsState) (c : Nat) : List WsEvent → Nat
  | [] => 0
  | e :: tr =>
    (if e = WsEvent.closed c ∧ c ∈ s.establishedSet then 1 else 0)
      + releaseConnectedCount (ws_step s e) c tr

/-- Session `c` has not been seen at all. -/
def StFresh (s : WsState) (c : Nat) : Prop :=
  c ∉ s.admitted ∧ c ∉ s.establishedSet ∧ c ∉ s.closedSet ∧ c ∉ s.destroyedSet

/-- Session `c` is admitted and holds a pending slot. -/
def StPend (s : WsState) (c : Nat) : Prop :=
  c ∈ s.admitted ∧ c ∉ s.establishedSet ∧ c ∉ s.closedSet ∧ c ∉ s.destroyedSet

/-- Session `c` is established (counted) and not yet closed. -/
def StEst (s : WsState) (c : Nat) : Prop :=
  c ∈ s.admitted ∧ c ∈ s.establishedSet ∧ c ∉ s.closedSet ∧ c ∉ s.destroyedSet

/-- Session `c` is closed but not yet destroyed. -/
def StClos (s : WsState) (c : Nat) : Prop :=
  c ∈ s.admitted ∧ c ∈ s.establishedSet ∧ c ∈ s.closedSet ∧ c ∉ s.destroyedSet

/-- Session `c` has been destroyed. -/
def StDead (s : WsState) (c : Nat) : Prop :=
  c ∈ s.destroyedSet

/-! ## JSON documents and the bounded response builders (src/src/json_out.c)

The builders assemble a jansson document and serialize it with
`json_dumpb(resp, out_buf, out_size, JSON_COMPACT)`.  The source relies on
the serialization call failing when the document does not fit the fixed
buffer ("Serialize JSON into the fixed buffer (fails if it does not fit)"),
and that contract is what `json_dumpb` models below.  `Json.dump` renders
the compact form; object fields keep insertion order, as jansson preserves
it.  The rendering of a `real` field abbreviates the printf %.17g double
format; no claim below depends on the digits of a real, only on
object/array shape and byte counts of documents without reals. -/

def quoteChar : Char := Char.ofNat 34

def backslashChar : Char := Char.ofNat 92

def hexDigit (n : Nat) : Char :=
  if n < 10 then Char.ofNat (48 + n) else Char.ofNat (87 + n)

/-- Compact-mode escaping of one character inside a JSON string, as
jansson's dump_string does: quote, backslash and control characters are
escaped, everything else passes through. -/
def escapeChar (c : Char) : String :=
  if c = quoteChar then String.mk [backslashChar, quoteChar]
  else if c = backslashChar then String.mk [backslashChar, backslashChar]
  else if c.toNat = 10 then String.mk [backslashChar, Char.ofNat 110]
  else if c.toNat = 9 then String.mk [backslashChar, Char.ofNat 116]
  else if c.toNat = 13 then String.mk [backslashChar, Char.ofNat 114]
  else if c.toNat < 32 then
    String.mk [backslashChar, Char.ofNat 117, Char.ofNat 48, Char.ofNat 48,
      hexDigit (c.toNat / 16), hexDigit (c.toNat % 16)]
  else String.singleton c

def escapeString (s : String) : String :=
  String.join (s.toList.map escapeChar)

/-- A jansson document, restricted to the node kinds the program builds. -/
inductive Json where
  | str (s : String)
  | int (n : Int)
  | real (q : Rat)
  | bool (b : Bool)
  | arr (elements : List Json)
  | obj (fields : List (String × Json))
deriving Repr

/-- Abbreviation of jansson's %.17g double rendering: fixed-point with six
fraction digits.  No claim depends on these digits. -/
def dumpRat (q : Rat) : String :=
  let n : Int := Int.floor (q * 1000000)
  let sign := if n < 0 then "-" else ""
  let a := n.natAbs
  sign ++ toString (a / 1000000) ++ "." ++ toString (a % 1000000)

mutual

/-- JSON_COMPACT serialization. -/
def Json.dump : Json → String
  | .str s => String.singleton quoteChar ++ escapeString s ++ String.singleton quoteChar
  | .int n => toString n
  | .real q => dumpRat q
  | .bool b => if b then "true" else "false"
  | .arr xs => "[" ++ Json.dumpArr xs ++ "]"
  | .obj fs => "\x7b" ++ Json.dumpObj fs ++ "\x7d"

def Json.dumpArr : List Json → String
  | [] => ""
  | [x] => Json.dump x
  | x :: y :: xs => Json.dump x ++ "," ++ Json.dumpArr (y :: xs)

def Json.dumpObj : List (String × Json) → String
  | [] => ""
  | [(k, v)] =>
    String.singleton quoteChar ++ escapeString k ++ String.singleton quoteChar
      ++ ":" ++ Json.dump v
  | (k, v) :: f :: fs =>
    String.singleton quoteChar ++ escapeString k ++ String.singleton quoteChar
      ++ ":" ++ Json.dump v ++ "," ++ Json.dumpObj (f :: fs)

end

/-- Field lookup in a jansson object (json_object_get): first binding wins. -/
def Json.get (key : String) : Json → Option Json
  | .obj fs => (fs.find? (fun kv => kv.1 = key)).map (fun kv => kv.2)
  | _ => none

/-- The json_dumpb contract the source relies on: succeed with the compact
serialization exactly when it fits `out_size` bytes. -/
def json_dumpb (j : Json) (out_size : Nat) : Option String :=
  let s := j.dump
  if s.utf8ByteSize ≤ out_size then some s else none

/-- Outcome of a variable-shape builder: the bytes written (empty when the
response is dropped), how many array elements were kept, how many
serialization attempts ran, and the reported truncation flag. -/
structure FitResult where
  out : String
  kept : Nat
  attempts : Nat
  truncated : Bool
deriving Repr, DecidableEq

/-- The truncate-and-retry serialization loop shared by
`build_process_list_json` and `build_storage_json` (src/src/json_out.c,
lines 171-191 and 244-264): serialize the document; on failure remove the
last array element (`json_array_remove(arr, n - 1)`), set the truncation
flag, and retry; when the array is empty and serialization still fails,
return length 0.  After `j` removals the jansson array holds exactly the
first `n - j` collected elements, so the loop is rendered by structural
recursion on the number `k` of elements still in the array, serializing
`elems.take k` at each attempt; `fitLoop` starts it at the full length. -/
def fitLoopAux (key : String) (out_size : Nat) (elems : List Json) : Nat → FitResult
  | 0 =>
    match json_dumpb (Json.obj [(key, Json.arr (elems.take 0))]) out_size with
    | some s => { out := s, kept := 0, attempts := 1, truncated := false }
    | none => { out := "", kept := 0, attempts := 1, truncated := false }
  | k + 1 =>
    match json_dumpb (Json.obj [(key, Json.arr (elems.take (k + 1)))]) out_size with
    | some s => { out := s, kept := k + 1, attempts := 1, truncated := false }
    | none =>
      let r := fitLoopAux key out_size elems k
      { r with attempts := r.attempts + 1, truncated := true }

/-- The loop entered on the full collected array. -/
def fitLoop (key : String) (elems : List Json) (out_size : Nat) : FitResult :=
  fitLoopAux key out_size elems elems.length

/-- `build_process_list_json` (src/src/json_out.c lines 135-192).  The
`proc_names` argument is the snapshot returned by `collect_process_list`;
the collection step reads /proc and is the collector's input here. -/
def build_process_list_json (proc_names : List String) (out_size : Nat) : FitResult :=
  fitLoop "processes" (proc_names.map Json.str) out_size

/-- Storage entry produced by collect_storage_info (struct storage_info). -/
structure storage_info where
  path : String
  fs_type : String
  total_kb : Int
  used_kb : Int
  available_kb : Int
deriving Repr, DecidableEq

/-- One storage array element (src/src/json_out.c lines 218-241). -/
def storage_obj (st : storage_info) : Json :=
  Json.obj [("path", Json.str st.path), ("fs", Json.str st.fs_type),
    ("total_kb", Json.int st.total_kb), ("used_kb", Json.int st.used_kb),
    ("available_kb", Json.int st.available_kb)]

/-- `build_storage_json` (src/src/json_out.c lines 194-265), over the
collected mount snapshot. -/
def build_storage_json (storage : List storage_info) (out_size : Nat) : FitResult :=
  fitLoop "storage" (storage.map storage_obj) out_size

/-! ## Aggregate CPU sampling (src/src/stats.c, read_cpu_stats)

`read_cpu_stats` parses the eight cumulative jiffy counters of the
aggregate "cpu" line, keeps `prev_idle`/`prev_total` static baselines, and
computes `100.0 * (1.0 - delta_idle / delta_total)`.  Read/parse failures
set cpu_usage to 0 and leave the baselines untouched; they are not part of
the reading sequence here. -/

/-- One parsed /proc/stat aggregate cpu line (src/src/stats.c lines
126-140). -/
structure CpuReading where
  user : Nat
  nice : Nat
  system : Nat
  idle : Nat
  iowait : Nat
  irq : Nat
  softirq : Nat
  steal : Nat
deriving Repr, DecidableEq

/-- `idle_time = idle + iowait` (src/src/stats.c line 139). -/
def CpuReading.idle_time (r : CpuReading) : Nat := r.idle + r.iowait

/-- `total_time` = sum of all eight counters (src/src/stats.c line 140). -/
def CpuReading.total_time (r : CpuReading) : Nat :=
  r.user + r.nice + r.system + r.idle + r.iowait + r.irq + r.softirq + r.steal

/-- The static baseline of read_cpu_stats (prev_idle, prev_total,
initialized). -/
structure CpuBaseline where
  prev_idle : Nat
  prev_total : Nat
  initialized : Bool
deriving Repr, DecidableEq

def cpu_baseline_init : CpuBaseline :=
  { prev_idle := 0, prev_total := 0, initialized := false }

/-- read_cpu_stats (src/src/stats.c lines 73-165) on one successfully parsed
reading: first call stores the baseline and reports 0; a decrease of either
aggregate versus the baseline re-baselines and reports 0; otherwise
usage = 100 * (1 - delta_idle / delta_total), guarded against
delta_total = 0. -/
def read_cpu_stats (b : CpuBaseline) (r : CpuReading) : CpuBaseline × Rat :=
  let idle_time := r.idle_time
  let total_time := r.total_time
  if b.initialized = false then
    ({ prev_idle := idle_time, prev_total := total_time, initialized := true }, 0)
  else if idle_time < b.prev_idle ∨ total_time < b.prev_total then
    ({ prev_idle := idle_time, prev_total := total_time, initialized := true }, 0)
  else
    let delta_idle := idle_time - b.prev_idle
    let delta_total := total_time - b.prev_total
    let usage : Rat :=
      if 0 < delta_total then
        100 * (1 - (delta_idle : Rat) / (delta_total : Rat))
      else 0
    ({ prev_idle := idle_time, prev_total := total_time, initialized := true }, usage)

/-- Iterate read_cpu_stats over a sequence of readings, collecting every
reported cpu_usage value. -/
def run_cpu_stats (b : CpuBaseline) : List CpuReading → CpuBaseline × List Rat
  | [] => (b, [])
  | r :: rs =>
    let step := read_cpu_stats b r
    let rest := run_cpu_stats step.1 rs
    (rest.1, step.2 :: rest.2)

/-- Pointwise order on readings: every cumulative counter non-decreasing,
which is what real /proc/stat counters satisfy between two samples without
a reset. -/
def CpuReading.le (r1 r2 : CpuReading) : Prop :=
  r1.user ≤ r2.user ∧ r1.nice ≤ r2.nice ∧ r1.system ≤ r2.system
    ∧ r1.idle ≤ r2.idle ∧ r1.iowait ≤ r2.iowait ∧ r1.irq ≤ r2.irq
    ∧ r1.softirq ≤ r2.softirq ∧ r1.steal ≤ r2.steal

instance (r1 r2 : CpuReading) : Decidable (CpuReading.le r1 r2) := by
  unfold CpuReading.le
  infer_instance

/-! ## Per-process monitor (src/src/proc.c) -/

/-- Outcome of reading and parsing /proc/pid/stat for one pid
(src/src/proc.c lines 293-321): fopen failure, fgets failure, a line
parse_proc_stat_times rejects, or parsed cumulative utime/stime jiffies. -/
inductive StatRead where
  | noFile
  | emptyFile
  | badFormat
  | ok (utime stime : Nat)
deriving Repr, DecidableEq

/-- The /proc surface consumed by src/src/proc.c, as data: the enumeration
order of numeric /proc entries seen by readdir, each pid's comm line
(newline already stripped; none = unreadable), the stat-line outcome, and
the memory totals the status/smaps_rollup scans produce (0 when the file is
absent, exactly as the C leaves the locals at 0). -/
structure ProcEnv where
  pids : List Nat
  comm : Nat → Option String
  statRead : Nat → StatRead
  rss_kb : Nat → Nat
  pss_kb : Nat → Nat
  uss_kb : Nat → Nat

/-- pid_matches_comm (src/src/proc.c lines 45-71): re-validate that a cached
pid still names proc_name; pid 0 (non-positive), empty name, unreadable comm
all fail. -/
def pid_matches_comm (env : ProcEnv) (pid : Nat) (proc_name : String) : Bool :=
  if pid = 0 ∨ proc_name = "" then false
  else
    match env.comm pid with
    | none => false
    | some buf => buf == proc_name

/-- The opening-bracket character marking kernel-thread names. -/
def leftBracketChar : Char := Char.ofNat 91

/-- The per-pid acceptance test of find_pid_by_comm's scan loop: readable
comm, first character not the kernel-thread bracket (`buf[0] == '['` in the
C), equal to proc_name. -/
def comm_matches_for_find (env : ProcEnv) (proc_name : String) (pid : Nat) : Bool :=
  match env.comm pid with
  | none => false
  | some buf =>
    if buf.data.head? = some leftBracketChar then false
    else buf == proc_name

/-- find_pid_by_comm (src/src/proc.c lines 77-145): first positive numeric
/proc entry whose comm matches, skipping bracketed names; 0 when none. -/
def find_pid_by_comm (env : ProcEnv) (proc_name : String) : Nat :=
  if proc_name = "" then 0
  else
    match env.pids.find? (fun pid =>
        decide (0 < pid) && comm_matches_for_find env proc_name pid) with
    | some pid => pid
    | none => 0

/-- struct per_session_data (src/src/session.h), without the raw output
buffers. -/
structure per_session_data where
  counted : Bool
  proc_name : String
  proc_enabled : Bool
  prev_proc_utime : Nat
  prev_proc_stime : Nat
  prev_proc_sample_mono_ms : Nat
  proc_pid : Nat
deriving Repr, DecidableEq

/-- The pid-resolution prologue of read_process_stats (src/src/proc.c lines
263-276): cache miss scans /proc; a cached pid is first re-validated against
proc_name, and on mismatch the cache and the CPU baseline are cleared before
re-resolving. -/
def resolve_monitored_pid (env : ProcEnv) (proc_name : String)
    (pss : per_session_data) : per_session_data × Nat :=
  if pss.proc_pid = 0 then
    let p := find_pid_by_comm env proc_name
    ({ pss with proc_pid := p }, p)
  else if pid_matches_comm env pss.proc_pid proc_name then
    (pss, pss.proc_pid)
  else
    let p := find_pid_by_comm env proc_name
    ({ pss with
        proc_pid := p
        prev_proc_utime := 0
        prev_proc_stime := 0
        prev_proc_sample_mono_ms := 0 }, p)

/-- The output parameters of read_process_stats.  The C callers initialize
the outputs to 0 before the call, and the early-exit paths leave them so. -/
structure ProcStatsOut where
  cpu : Rat
  rss_kb : Nat
  pss_kb : Nat
  uss_kb : Nat
  pid : Nat
deriving Repr, DecidableEq

/-- read_process_stats (src/src/proc.c lines 231-442).  Returns
(found, updated session, outputs).  Mirrors the source paths: the
clk_tck <= 0 guard; pid resolution; the not-found reset; the three
stat-read failure paths (fopen failure resets pid and baseline, fgets
failure returns without resetting, parse failure resets); the first-sample
baseline; the restart/clock-anomaly re-baseline; and the delta
computation `(delta_jiffies / clk_tck / delta_seconds * 100) /
cpu_core_count`. -/
def read_process_stats (env : ProcEnv) (proc_name : String)
    (pss : per_session_data) (now_mono_ms : Nat) (clk_tck : Int)
    (cpu_core_count : Nat) : Bool × per_session_data × ProcStatsOut :=
  if clk_tck ≤ 0 then
    (false, pss, { cpu := 0, rss_kb := 0, pss_kb := 0, uss_kb := 0, pid := 0 })
  else
    let res := resolve_monitored_pid env proc_name pss
    let pss1 := res.1
    let pid := res.2
    if pid = 0 then
      (false,
        { pss1 with
            prev_proc_utime := 0
            prev_proc_stime := 0
            prev_proc_sample_mono_ms := 0
            proc_pid := 0 },
        { cpu := 0, rss_kb := 0, pss_kb := 0, uss_kb := 0, pid := 0 })
    else
      match env.statRead pid with
      | .noFile =>
        (false,
          { pss1 with
              proc_pid := 0
              prev_proc_utime := 0
              prev_proc_stime := 0
              prev_proc_sample_mono_ms := 0 },
          { cpu := 0, rss_kb := 0, pss_kb := 0, uss_kb := 0, pid := pid })
      | .emptyFile =>
        (false, pss1,
          { cpu := 0, rss_kb := 0, pss_kb := 0, uss_kb := 0, pid := pid })
      | .badFormat =>
        (false,
          { pss1 with
              prev_proc_utime := 0
              prev_proc_stime := 0
              prev_proc_sample_mono_ms := 0
              proc_pid := 0 },
          { cpu := 0, rss_kb := 0, pss_kb := 0, uss_kb := 0, pid := pid })
      | .ok utime stime =>
        let rss := env.rss_kb pid
        let pssm := env.pss_kb pid
        let ussm := env.uss_kb pid
        if pss1.prev_proc_sample_mono_ms = 0 then
          (true,
            { pss1 with
                prev_proc_utime := utime
                prev_proc_stime := stime
                prev_proc_sample_mono_ms := now_mono_ms },
            { cpu := 0, rss_kb := rss, pss_kb := pssm, uss_kb := ussm, pid := pid })
        else
          let prev_total := pss1.prev_proc_utime + pss1.prev_proc_stime
          let curr_total := utime + stime
          if curr_total < prev_total ∨ now_mono_ms ≤ pss1.prev_proc_sample_mono_ms then
            (true,
              { pss1 with
                  prev_proc_utime := utime
                  prev_proc_stime := stime
                  prev_proc_sample_mono_ms := now_mono_ms },
              { cpu := 0, rss_kb := rss, pss_kb := pssm, uss_kb := ussm, pid := pid })
          else
            let delta_jiffies := curr_total - prev_total
            let delta_seconds : Rat :=
              ((now_mono_ms - pss1.prev_proc_sample_mono_ms : Nat) : Rat) / 1000
            let cpu : Rat :=
              if 0 < delta_seconds then
                ((delta_jiffies : Rat) / (clk_tck : Rat) / delta_seconds * 100)
                  / (cpu_core_count : Rat)
              else 0
            (true,
              { pss1 with
                  prev_proc_utime := utime
                  prev_proc_stime := stime
                  prev_proc_sample_mono_ms := now_mono_ms },
              { cpu := cpu, rss_kb := rss, pss_kb := pssm, uss_kb := ussm, pid := pid })

/-- An apostrophe character, used in the process_not_found message. -/
def squote : String := String.singleton (Char.ofNat 39)

/-- struct sys_stats: the shared snapshot fields serialized by
build_stats_json. -/
structure sys_stats where
  timestamp_ms : Int
  monotonic_ms : Nat
  delta_ms : Nat
  cpu_usage : Rat
  mem_total_kb : Int
  mem_available_kb : Int
  uptime_s : Rat
  load1 : Rat
  load5 : Rat
  load15 : Rat
deriving Repr

/-- The jansson document assembled by build_stats_json (src/src/json_out.c
lines 14-121), before serialization, together with the session state after
the embedded read_process_stats call.  The error message renders
snprintf(msg, 128, "Process not found" with the name in single quotes);
monitored names are at most 63 bytes so the 128-byte cap never truncates. -/
def build_stats_resp (env : ProcEnv) (stats : sys_stats) (cpu_core_count : Nat)
    (connected_clients max_clients : Nat) (pss : per_session_data)
    (clk_tck : Int) : Json × per_session_data :=
  let base : List (String × Json) :=
    [("ts", Json.int stats.timestamp_ms),
      ("mono_ms", Json.int stats.monotonic_ms),
      ("delta_ms", Json.int stats.delta_ms),
      ("cpu", Json.real stats.cpu_usage),
      ("cpu_cores", Json.int cpu_core_count),
      ("mem_total_kb", Json.int stats.mem_total_kb),
      ("mem_available_kb", Json.int stats.mem_available_kb),
      ("uptime_s", Json.real stats.uptime_s),
      ("load1", Json.real stats.load1),
      ("load5", Json.real stats.load5),
      ("load15", Json.real stats.load15),
      ("clients", Json.obj [("connected", Json.int connected_clients),
        ("max", Json.int max_clients)])]
  if pss.proc_enabled then
    let r := read_process_stats env pss.proc_name pss stats.monotonic_ms clk_tck
      cpu_core_count
    if r.1 then
      (Json.obj (base ++ [("proc", Json.obj
          [("name", Json.str pss.proc_name),
            ("cpu", Json.real r.2.2.cpu),
            ("rss_kb", Json.int r.2.2.rss_kb),
            ("pss_kb", Json.int r.2.2.pss_kb),
            ("uss_kb", Json.int r.2.2.uss_kb),
            ("pid", Json.int r.2.2.pid)])]), r.2.1)
    else
      (Json.obj (base ++ [("error", Json.obj
          [("type", Json.str "process_not_found"),
            ("message", Json.str ("Process " ++ squote ++ pss.proc_name
              ++ squote ++ " not found"))])]), r.2.1)
  else
    (Json.obj base, pss)

/-- build_stats_json (src/src/json_out.c lines 14-133): assemble the
document, serialize it with json_dumpb into out_size bytes, report (length,
bytes, truncated flag) and the updated session. -/
def build_stats_json (env : ProcEnv) (stats : sys_stats) (cpu_core_count : Nat)
    (connected_clients max_clients : Nat) (pss : per_session_data)
    (clk_tck : Int) (out_size : Nat) :
    Nat × String × Bool × per_session_data :=
  let rp := build_stats_resp env stats cpu_core_count connected_clients max_clients
    pss clk_tck
  match json_dumpb rp.1 out_size with
  | some s => (s.utf8ByteSize, s, false, rp.2)
  | none => (0, "", true, rp.2)

/-! ## System identity response and the inbound command dispatch -/

/-- struct system_info (src/src/system_info.h). -/
structure system_info where
  kernel_release : String
  kernel_version : String
  machine : String
  hostname : String
  os_name : String
  os_version : String
  os_pretty_name : String
  cpu_core_count : Int
deriving Repr

/-- The document built by build_system_info_json (src/src/json_out.c lines
267-334) from a successfully read system_info: the one-shot
system-identity reply's shape. -/
def build_system_info_resp (info : system_info) : Json :=
  Json.obj [("system", Json.obj
    ([("kernel_release", Json.str info.kernel_release),
      ("kernel_version", Json.str info.kernel_version),
      ("machine", Json.str info.machine)]
      ++ (if info.os_pretty_name ≠ "" then
            [("os_pretty_name", Json.str info.os_pretty_name)]
          else
            (if info.os_name ≠ "" then [("os_name", Json.str info.os_name)] else [])
              ++ (if info.os_version ≠ "" then
                    [("os_version", Json.str info.os_version)]
                  else []))
      ++ (if info.hostname ≠ "" then [("hostname", Json.str info.hostname)] else [])
      ++ [("cpu_cores", Json.int info.cpu_core_count)]))]

/-- jansson json_is_true on the result of json_object_get. -/
def json_is_true : Option Json → Bool
  | some (Json.bool true) => true
  | _ => false

/-- The one-shot replies the RECEIVE handler can send. `systemInfo` is the
reply build_system_info_json would produce; no branch of the handler emits
it. -/
inductive WsReply where
  | processList
  | storage
  | systemInfo
deriving Repr, DecidableEq

/-- LWS_CALLBACK_RECEIVE (src/src/ws_server.c lines 158-262): drop messages
of length 0 or >= 128 bytes before parsing; drop unparsable or non-object
payloads; then dispatch on list_processes, storage and monitor.  `parsed`
stands for the json_loads result on the message bytes and `len` for the
byte count; the 63-byte strncpy cap on the monitored name is rendered with
String.take.  Returns the updated session and the triggered one-shot
reply, if any. -/
def ws_receive (pss : per_session_data) (len : Nat) (parsed : Option Json) :
    per_session_data × Option WsReply :=
  if len = 0 ∨ 128 ≤ len then (pss, none)
  else
    match parsed with
    | none => (pss, none)
    | some root =>
      match root with
      | Json.obj _ =>
        if json_is_true (root.get "list_processes") then (pss, some WsReply.processList)
        else if json_is_true (root.get "storage") then (pss, some WsReply.storage)
        else
          match root.get "monitor" with
          | none => (pss, none)
          | some (Json.str m) =>
            if m = "" then
              ({ pss with
                  proc_enabled := false
                  proc_name := ""
                  prev_proc_utime := 0
                  prev_proc_stime := 0
                  prev_proc_sample_mono_ms := 0
                  proc_pid := 0 }, none)
            else
              ({ pss with
                  proc_name := m.take 63
                  proc_enabled := true
                  prev_proc_utime := 0
                  prev_proc_stime := 0
                  prev_proc_sample_mono_ms := 0
                  proc_pid := 0 }, none)
          | some _ => (pss, none)
      | _ => (pss, none)

/-- A concrete fresh session. -/
def fresh_pss : per_session_data :=
  { counted := false
    proc_name := ""
    proc_enabled := false
    prev_proc_utime := 0
    prev_proc_stime := 0
    prev_proc_sample_mono_ms := 0
    proc_pid := 0 }

/-- A small concrete /proc environment with one user process. -/
def demo_env : ProcEnv :=
  { pids := [5]
    comm := fun p => if p = 5 then some "init" else none
    statRead := fun p => if p = 5 then StatRead.ok 30 12 else StatRead.noFile
    rss_kb := fun _ => 1024
    pss_kb := fun _ => 700
    uss_kb := fun _ => 500 }

/-- An environment with no process at all. -/
def empty_env : ProcEnv :=
  { pids := []
    comm := fun _ => none
    statRead := fun _ => StatRead.noFile
    rss_kb := fun _ => 0
    pss_kb := fun _ => 0
    uss_kb := fun _ => 0 }

/-- A session monitoring a process that does not exist. -/
def monitoring_pss : per_session_data :=
  { counted := true
    proc_name := "nonexistent_xyz"
    proc_enabled := true
    prev_proc_utime := 0
    prev_proc_stime := 0
    prev_proc_sample_mono_ms := 0
    proc_pid := 0 }

/-- The snapshot of the spec scenario. -/
def demo_stats : sys_stats :=
  { timestamp_ms := 1766089635269
    monotonic_ms := 4689109526
    delta_ms := 500
    cpu_usage := 0
    mem_total_kb := 981716
    mem_available_kb := 531704
    uptime_s := 4689109
    load1 := 7 / 25
    load5 := 17 / 50
    load15 := 13 / 50 }

/-- A session asking to monitor "init" with no cached pid. -/
def init_pss : per_session_data :=
  { counted := true
    proc_name := "init"
    proc_enabled := true
    prev_proc_utime := 0
    prev_proc_stime := 0
    prev_proc_sample_mono_ms := 0
    proc_pid := 0 }

/-- A session with an established CPU baseline for pid 5. -/
def baseline_pss : per_session_data :=
  { counted := true
    proc_name := "init"
    proc_enabled := true
    prev_proc_utime := 10
    prev_proc_stime := 10
    prev_proc_sample_mono_ms := 1000
    proc_pid := 5 }

/-- C5 counterexample inputs: the user counter falls from 100 to 60 while
idle rises from 0 to 50, so neither aggregate (idle+iowait, total)
decreases and the reset guard does not fire. -/
def partial_reset_readings : List CpuReading :=
  [{ user := 100, nice := 0, system := 0, idle := 0, iowait := 0,
      irq := 0, softirq := 0, steal := 0 },
    { user := 60, nice := 0, system := 0, idle := 50, iowait := 0,
      irq := 0, softirq := 0, steal := 0 }]

/-- Monotone demo readings: usage goes from the baseline sample to 50%. -/
def monotone_readings : List CpuReading :=
  [{ user := 10, nice := 0, system := 0, idle := 90, iowait := 0,
      irq := 0, softirq := 0, steal := 0 },
    { user := 30, nice := 0, system := 0, idle := 110, iowait := 0,
      irq := 0, softirq := 0, steal := 0 }]

/-- Environment for the per-process half of the C5 counterexample: pid 5
reports cumulative utime+stime of 1000 jiffies.  Against a zero baseline
this is a 1000-jiffy jump — the counters a monitor sees after the original
process exits and a same-named process reuses its pid, which passes both
the comm re-validation and the counter-monotonicity guard. -/
def jump_env : ProcEnv :=
  { pids := [5]
    comm := fun p => if p = 5 then some "init" else none
    statRead := fun p => if p = 5 then StatRead.ok 600 400 else StatRead.noFile
    rss_kb := fun _ => 0
    pss_kb := fun _ => 0
    uss_kb := fun _ => 0 }

/-- Session with an established zero CPU baseline for pid 5, last sampled at
monotonic millisecond 1000. -/
def jump_pss : per_session_data :=
  { counted := true
    proc_name := "init"
    proc_enabled := true
    prev_proc_utime := 0
    prev_proc_stime := 0
    prev_proc_sample_mono_ms := 1000
    proc_pid := 5 }

lemma wsinv_init : WsInv ws_init := by
  refine ⟨?_, ?_, ?_, ?_, ?_⟩ <;>
    simp [ws_init, pendingSet, connectedSet, MAX_WS_CONNECTED_CLIENTS]

lemma mem_pendingSet {s : WsState} {c : Nat} :
    c ∈ pendingSet s ↔ c ∈ s.admitted ∧ c ∉ s.establishedSet ∧ c ∉ s.destroyedSet := by
  simp [pendingSet, not_or]

lemma mem_connectedSet {s : WsState} {c : Nat} :
    c ∈ connectedSet s ↔ c ∈ s.establishedSet ∧ c ∉ s.closedSet := by
  simp [connectedSet]

lemma pendingSet_mk (p q : Nat) (a e cl d : Finset Nat) :
    pendingSet ⟨p, q, a, e, cl, d⟩ = a \ (e ∪ d) := rfl

lemma connectedSet_mk (p q : Nat) (a e cl d : Finset Nat) :
    connectedSet ⟨p, q, a, e, cl, d⟩ = e \ cl := rfl

lemma wsinv_step (s : WsState) (e : WsEvent) (hinv : WsInv s) (he : Enabled s e) :
    WsInv (ws_step s e) := by
  obtain ⟨hp, hq, hes, hcs, hle⟩ := hinv
  cases e with
  | filter c =>
    obtain ⟨ha, hne, hncl, hnd⟩ := he
    by_cases hg :
        MAX_WS_CONNECTED_CLIENTS ≤ s.ws_connected_client_count + s.ws_pending_client_count
    · simpa [ws_step, hg] using ⟨hp, hq, hes, hcs, hle⟩
    · have hps : insert c s.admitted \ (s.establishedSet ∪ s.destroyedSet)
          = insert c (pendingSet s) := by
        ext x
        simp only [pendingSet, Finset.mem_sdiff, Finset.mem_union, Finset.mem_insert, not_or]
        constructor
        · rintro ⟨hx | hx, hx2, hx3⟩
          · exact Or.inl hx
          · exact Or.inr ⟨hx, hx2, hx3⟩
        · rintro (rfl | ⟨hx, hx2, hx3⟩)
          · exact ⟨Or.inl rfl, hne, hnd⟩
          · exact ⟨Or.inr hx, hx2, hx3⟩
      have hnotmem : c ∉ pendingSet s := fun hc => ha (mem_pendingSet.mp hc).1
      refine ⟨?_, ?_, ?_, ?_, ?_⟩
      · simp only [ws_step, if_neg hg, pendingSet_mk]
        rw [hps, Finset.card_insert_of_not_mem hnotmem, hp]
      · simp only [ws_step, if_neg hg, connectedSet_mk]
        rw [hq]
        rfl
      · simp only [ws_step, if_neg hg]
        exact hes.trans (Finset.subset_insert c s.admitted)
      · simpa [ws_step, hg] using hcs
      · simp only [ws_step, if_neg hg]
        omega
  | established c =>
    obtain ⟨ha, hne, hnd⟩ := he
    have hcmem : c ∈ pendingSet s := mem_pendingSet.mpr ⟨ha, hne, hnd⟩
    have hppos : 0 < s.ws_pending_client_count := by
      rw [hp]
      exact Finset.card_pos.mpr ⟨c, hcmem⟩
    have hncl : c ∉ s.closedSet := fun hc => hne (hcs hc)
    have hps : s.admitted \ (insert c s.establishedSet ∪ s.destroyedSet)
        = (pendingSet s).erase c := by
      ext x
      simp only [pendingSet, Finset.mem_sdiff, Finset.mem_union, Finset.mem_insert,
        Finset.mem_erase, not_or]
      tauto
    have hqs : insert c s.establishedSet \ s.closedSet = insert c (connectedSet s) := by
      ext x
      simp only [connectedSet, Finset.mem_sdiff, Finset.mem_insert]
      constructor
      · rintro ⟨hx | hx, hx2⟩
        · exact Or.inl hx
        · exact Or.inr ⟨hx, hx2⟩
      · rintro (rfl | ⟨hx, hx2⟩)
        · exact ⟨Or.inl rfl, hncl⟩
        · exact ⟨Or.inr hx, hx2⟩
    have hcnotconn : c ∉ connectedSet s := fun hc => hne (mem_connectedSet.mp hc).1
    refine ⟨?_, ?_, ?_, ?_, ?_⟩
    · simp only [ws_step, pendingSet_mk, if_pos hppos]
      rw [hps, Finset.card_erase_of_mem hcmem]
      omega
    · simp only [ws_step, connectedSet_mk]
      rw [hqs, Finset.card_insert_of_not_mem hcnotconn, hq]
    · simp only [ws_step]
      exact Finset.insert_subset ha hes
    · simp only [ws_step]
      exact hcs.trans (Finset.subset_insert c s.establishedSet)
    · simp only [ws_step, if_pos hppos]
      omega
  | closed c =>
    obtain ⟨hest, hncl, hnd⟩ := he
    have hcmem : c ∈ connectedSet s := mem_connectedSet.mpr ⟨hest, hncl⟩
    have hqpos : 0 < s.ws_connected_client_count := by
      rw [hq]
      exact Finset.card_pos.mpr ⟨c, hcmem⟩
    have hqs : s.establishedSet \ insert c s.closedSet = (connectedSet s).erase c := by
      ext x
      simp only [connectedSet, Finset.mem_sdiff, Finset.mem_insert, Finset.mem_erase, not_or]
      tauto
    refine ⟨?_, ?_, ?_, ?_, ?_⟩
    · simp only [ws_step, if_pos hest, pendingSet_mk]
      rw [hp]
      rfl
    · simp only [ws_step, if_pos hest, connectedSet_mk, if_pos hqpos]
      rw [hqs, Finset.card_erase_of_mem hcmem]
      omega
    · simpa [ws_step, hest] using hes
    · simp only [ws_step, if_pos hest]
      exact Finset.insert_subset hest hcs
    · simp only [ws_step, if_pos hest, if_pos hqpos]
      omega
  | destroy c =>
    obtain ⟨ha, hnd, hcl⟩ := he
    by_cases hest : c ∈ s.establishedSet
    · have hps : s.admitted \ (s.establishedSet ∪ insert c s.destroyedSet) = pendingSet s := by
        ext x
        simp only [pendingSet, Finset.mem_sdiff, Finset.mem_union, Finset.mem_insert, not_or]
        constructor
        · rintro ⟨hx, hx2, hx3, hx4⟩
          exact ⟨hx, hx2, hx4⟩
        · rintro ⟨hx, hx2, hx3⟩
          refine ⟨hx, hx2, ?_, hx3⟩
          rintro rfl
          exact hx2 hest
      refine ⟨?_, ?_, ?_, ?_, ?_⟩
      · simp only [ws_step, if_pos hest, pendingSet_mk]
        rw [hps, hp]
      · simp only [ws_step, if_pos hest, connectedSet_mk]
        rw [hq]
        rfl
      · simpa [ws_step, hest] using hes
      · simpa [ws_step, hest] using hcs
      · simpa [ws_step, hest] using hle
    · have hcmem : c ∈ pendingSet s := mem_pendingSet.mpr ⟨ha, hest, hnd⟩
      have hppos : 0 < s.ws_pending_client_count := by
        rw [hp]
        exact Finset.card_pos.mpr ⟨c, hcmem⟩
      have hps : s.admitted \ (s.establishedSet ∪ insert c s.destroyedSet)
          = (pendingSet s).erase c := by
        ext x
        simp only [pendingSet, Finset.mem_sdiff, Finset.mem_union, Finset.mem_insert,
          Finset.mem_erase, not_or]
        tauto
      refine ⟨?_, ?_, ?_, ?_, ?_⟩
      · simp only [ws_step, if_neg hest, pendingSet_mk, if_pos hppos]
        rw [hps, Finset.card_erase_of_mem hcmem]
        omega
      · simp only [ws_step, if_neg hest, connectedSet_mk]
        rw [hq]
        rfl
      · simpa [ws_step, hest] using hes
      · simpa [ws_step, hest] using hcs
      · simp only [ws_step, if_neg hest, if_pos hppos]
        omega

lemma decrement_safe_of_inv (s : WsState) (e : WsEvent) (hinv : WsInv s) (he : Enabled s e) :
    decrement_safe s e := by
  cases e with
  | filter c => trivial
  | established c =>
    obtain ⟨ha, hne, hnd⟩ := he
    have hcmem : c ∈ pendingSet s := mem_pendingSet.mpr ⟨ha, hne, hnd⟩
    show 0 < s.ws_pending_client_count
    rw [hinv.pending_eq]
    exact Finset.card_pos.mpr ⟨c, hcmem⟩
  | closed c =>
    obtain ⟨hest, hncl, hnd⟩ := he
    intro _
    have hcmem : c ∈ connectedSet s := mem_connectedSet.mpr ⟨hest, hncl⟩
    rw [hinv.connected_eq]
    exact Finset.card_pos.mpr ⟨c, hcmem⟩
  | destroy c =>
    obtain ⟨ha, hnd, hcl⟩ := he
    intro hne
    have hcmem : c ∈ pendingSet s := mem_pendingSet.mpr ⟨ha, hne, hnd⟩
    rw [hinv.pending_eq]
    exact Finset.card_pos.mpr ⟨c, hcmem⟩

lemma wsinv_run (tr : List WsEvent) (s : WsState) (hinv : WsInv s) (h : WFTrace s tr) :
    WsInv (ws_run s tr) := by
  induction tr generalizing s with
  | nil => exact hinv
  | cons e tr ih =>
    exact ih (ws_step s e) (wsinv_step s e hinv h.1) h.2

lemma wftrace_take (tr : List WsEvent) (s : WsState) (h : WFTrace s tr) (k : Nat) :
    WFTrace s (tr.take k) := by
  induction tr generalizing s k with
  | nil => simp [WFTrace]
  | cons e tr ih =>
    cases k with
    | zero => trivial
    | succ k => exact ⟨h.1, ih (ws_step s e) h.2 k⟩

lemma enabled_at_index (tr : List WsEvent) (s : WsState) (h : WFTrace s tr) (k : Nat)
    (hk : k < tr.length) :
    Enabled (ws_run s (tr.take k)) (tr.getD k (WsEvent.filter 0)) := by
  induction tr generalizing s k with
  | nil => simp at hk
  | cons e tr ih =>
    cases k with
    | zero => simpa [ws_run] using h.1
    | succ k =>
      simpa [ws_run] using ih (ws_step s e) h.2 k (by simpa using hk)

lemma ws_run_take_succ (tr : List WsEvent) (s : WsState) (k : Nat) (hk : k < tr.length) :
    ws_run s (tr.take (k + 1)) =
      ws_step (ws_run s (tr.take k)) (tr.getD k (WsEvent.filter 0)) := by
  induction tr generalizing s k with
  | nil => simp at hk
  | cons e tr ih =>
    cases k with
    | zero => simp [ws_run]
    | succ k =>
      simpa [ws_run] using ih (ws_step s e) k (by simpa using hk)

/-- C1: along every well-formed sequence of connection lifecycle events
(admission filter, established, closed, destroyed), the sum
`ws_connected_client_count + ws_pending_client_count` never exceeds
`MAX_WS_CONNECTED_CLIENTS` (10); no guarded decrement in the callback ever
meets a zero counter, so the unsigned counters never underflow; and an
admission attempt made when the sum is already at the limit is rejected with
the entire state — in particular both counters — unchanged. -/
theorem ws_accounting_sum_bounded (tr : List WsEvent) (h : WFTrace ws_init tr) :
    (∀ k, (ws_run ws_init (tr.take k)).ws_connected_client_count
        + (ws_run ws_init (tr.take k)).ws_pending_client_count
        ≤ MAX_WS_CONNECTED_CLIENTS)
    ∧ (∀ k, k < tr.length →
        decrement_safe (ws_run ws_init (tr.take k)) (tr.getD k (WsEvent.filter 0)))
    ∧ (∀ c, MAX_WS_CONNECTED_CLIENTS ≤
          (ws_run ws_init tr).ws_connected_client_count
          + (ws_run ws_init tr).ws_pending_client_count →
        ws_step (ws_run ws_init tr) (WsEvent.filter c) = ws_run ws_init tr) := by
  have hinv : ∀ k, WsInv (ws_run ws_init (tr.take k)) := fun k =>
    wsinv_run _ _ wsinv_init (wftrace_take tr ws_init h k)
  refine ⟨?_, ?_, ?_⟩
  · intro k
    have := (hinv k).sum_le
    omega
  · intro k hk
    exact decrement_safe_of_inv _ _ (hinv k) (enabled_at_index tr ws_init h k hk)
  · intro c hc
    simp [ws_step, hc]

/-- Witness for C1: a concrete well-formed trace, evaluated. -/
theorem ws_accounting_sum_bounded_witness :
    WFTrace ws_init
      [WsEvent.filter 0, WsEvent.established 0, WsEvent.filter 1, WsEvent.closed 0,
        WsEvent.destroy 0, WsEvent.destroy 1]
    ∧ (ws_run ws_init ([WsEvent.filter 0, WsEvent.established 0, WsEvent.filter 1,
          WsEvent.closed 0, WsEvent.destroy 0, WsEvent.destroy 1].take 3)).ws_connected_client_count
      + (ws_run ws_init ([WsEvent.filter 0, WsEvent.established 0, WsEvent.filter 1,
          WsEvent.closed 0, WsEvent.destroy 0, WsEvent.destroy 1].take 3)).ws_pending_client_count
      ≤ MAX_WS_CONNECTED_CLIENTS :=
  ⟨by decide, (ws_accounting_sum_bounded _ (by decide)).1 3⟩

lemma mem_step_of_ne (s : WsState) (e : WsEvent) (c : Nat) (hne : e.sid ≠ c) :
    (c ∈ (ws_step s e).admitted ↔ c ∈ s.admitted)
    ∧ (c ∈ (ws_step s e).establishedSet ↔ c ∈ s.establishedSet)
    ∧ (c ∈ (ws_step s e).closedSet ↔ c ∈ s.closedSet)
    ∧ (c ∈ (ws_step s e).destroyedSet ↔ c ∈ s.destroyedSet) := by
  have hsym : ∀ d : Nat, d ≠ c → ¬c = d := fun d hd h => hd h.symm
  cases e with
  | filter d =>
    simp only [WsEvent.sid] at hne
    simp only [ws_step]
    split_ifs <;> simp [Finset.mem_insert, hsym d hne]
  | established d =>
    simp only [WsEvent.sid] at hne
    simp [ws_step, Finset.mem_insert, hsym d hne]
  | closed d =>
    simp only [WsEvent.sid] at hne
    simp only [ws_step]
    split_ifs <;> simp [Finset.mem_insert, hsym d hne]
  | destroy d =>
    simp only [WsEvent.sid] at hne
    simp only [ws_step]
    split_ifs <;> simp [Finset.mem_insert, hsym d hne]

lemma release_counts (tr : List WsEvent) (s : WsState) (c : Nat) (h : WFTrace s tr) :
    (StDead s c → releasePendingCount s c tr = 0 ∧ releaseConnectedCount s c tr = 0
        ∧ WsEvent.destroy c ∉ tr ∧ WsEvent.established c ∉ tr)
    ∧ (StClos s c → releasePendingCount s c tr = 0 ∧ releaseConnectedCount s c tr = 0
        ∧ WsEvent.established c ∉ tr)
    ∧ (StEst s c → (releasePendingCount s c tr = 0 ∧ releaseConnectedCount s c tr ≤ 1
          ∧ (WsEvent.destroy c ∈ tr → releaseConnectedCount s c tr = 1))
        ∧ WsEvent.established c ∉ tr)
    ∧ (StPend s c → WsEvent.destroy c ∈ tr →
        releasePendingCount s c tr + releaseConnectedCount s c tr = 1
        ∧ (releaseConnectedCount s c tr = 1 ↔ WsEvent.established c ∈ tr))
    ∧ (StFresh s c → WsEvent.destroy c ∈ tr →
        releasePendingCount s c tr + releaseConnectedCount s c tr = 1
        ∧ (releaseConnectedCount s c tr = 1 ↔ WsEvent.established c ∈ tr)) := by
  induction tr generalizing s with
  | nil =>
    refine ⟨?_, ?_, ?_, ?_, ?_⟩ <;>
      simp [releasePendingCount, releaseConnectedCount]
  | cons e tr ih =>
    obtain ⟨he, hwf⟩ := h
    obtain ⟨ihD, ihC, ihE, ihP, ihF⟩ := ih (ws_step s e) hwf
    by_cases hsid : e.sid = c
    · -- the head event concerns session c
      cases e with
      | filter d =>
        obtain rfl : c = d := hsid.symm
        obtain ⟨ha, hne, hncl, hnd⟩ := he
        refine ⟨fun hSt => (hnd hSt).elim, fun hSt => absurd hSt.2.2.1 hncl,
          fun hSt => absurd hSt.2.1 hne, fun hSt => absurd hSt.1 ha, ?_⟩
        intro _ hdest
        have hdest' : WsEvent.destroy c ∈ tr := by
          simpa [List.mem_cons] using hdest
        have eq1 : releasePendingCount s c (WsEvent.filter c :: tr)
            = releasePendingCount (ws_step s (WsEvent.filter c)) c tr := by
          simp [releasePendingCount]
        have eq2 : releaseConnectedCount s c (WsEvent.filter c :: tr)
            = releaseConnectedCount (ws_step s (WsEvent.filter c)) c tr := by
          simp [releaseConnectedCount]
        by_cases hg : MAX_WS_CONNECTED_CLIENTS ≤
            s.ws_connected_client_count + s.ws_pending_client_count
        · -- rejected: state unchanged, session stays fresh
          have hstep : ws_step s (WsEvent.filter c) = s := by
            simp [ws_step, hg]
          have hres := ihF (by rw [hstep]; exact ⟨ha, hne, hncl, hnd⟩) hdest'
          rw [eq1, eq2]
          refine ⟨hres.1, ?_⟩
          rw [hres.2]
          simp [List.mem_cons]
        · -- accepted: session becomes pending
          have hpend : StPend (ws_step s (WsEvent.filter c)) c := by
            simp [StPend, ws_step, hg, hne, hncl, hnd]
          have hres := ihP hpend hdest'
          rw [eq1, eq2]
          refine ⟨hres.1, ?_⟩
          rw [hres.2]
          simp [List.mem_cons]
      | established d =>
        obtain rfl : c = d := hsid.symm
        obtain ⟨ha, hne, hnd⟩ := he
        refine ⟨fun hSt => (hnd hSt).elim, fun hSt => absurd hSt.2.1 hne,
          fun hSt => absurd hSt.2.1 hne, ?_, fun hSt => absurd ha hSt.1⟩
        intro hSt hdest
        have hncl : c ∉ s.closedSet := hSt.2.2.1
        have hest2 : StEst (ws_step s (WsEvent.established c)) c := by
          simp [StEst, ws_step, ha, hncl, hnd]
        have hdest' : WsEvent.destroy c ∈ tr := by
          simpa [List.mem_cons] using hdest
        obtain ⟨⟨hrp, hrcle, hrc⟩, hnoest⟩ := ihE hest2
        have hrc1 := hrc hdest'
        have eq1 : releasePendingCount s c (WsEvent.established c :: tr)
            = releasePendingCount (ws_step s (WsEvent.established c)) c tr := by
          simp [releasePendingCount]
        have eq2 : releaseConnectedCount s c (WsEvent.established c :: tr)
            = releaseConnectedCount (ws_step s (WsEvent.established c)) c tr := by
          simp [releaseConnectedCount]
        rw [eq1, eq2, hrp, hrc1]
        simp [List.mem_cons]
      | closed d =>
        obtain rfl : c = d := hsid.symm
        obtain ⟨hest, hncl, hnd⟩ := he
        refine ⟨fun hSt => (hnd hSt).elim, fun hSt => absurd hSt.2.2.1 hncl, ?_,
          fun hSt => absurd hest hSt.2.1, fun hSt => absurd hest hSt.2.1⟩
        intro hSt
        have hclos : StClos (ws_step s (WsEvent.closed c)) c := by
          simp [StClos, ws_step, hest, hSt.1, hnd]
        obtain ⟨hrp, hrc, hnoest⟩ := ihC hclos
        have e1 : releasePendingCount s c (WsEvent.closed c :: tr)
            = releasePendingCount (ws_step s (WsEvent.closed c)) c tr := by
          simp [releasePendingCount]
        have e2 : releaseConnectedCount s c (WsEvent.closed c :: tr)
            = 1 + releaseConnectedCount (ws_step s (WsEvent.closed c)) c tr := by
          simp [releaseConnectedCount, hest]
        refine ⟨⟨?_, ?_, ?_⟩, ?_⟩
        · rw [e1, hrp]
        · rw [e2, hrc]
        · intro _
          rw [e2, hrc]
        · simp [List.mem_cons, hnoest]
      | destroy d =>
        obtain rfl : c = d := hsid.symm
        obtain ⟨ha, hnd, hcl⟩ := he
        have hdead : StDead (ws_step s (WsEvent.destroy c)) c := by
          by_cases hest : c ∈ s.establishedSet <;> simp [StDead, ws_step, hest]
        obtain ⟨hrp, hrc, hnodest, hnoest⟩ := ihD hdead
        refine ⟨fun hSt => (hnd hSt).elim, ?_, fun hSt => absurd (hcl hSt.2.1) hSt.2.2.1,
          ?_, fun hSt => absurd ha hSt.1⟩
        · intro hSt
          have hest : c ∈ s.establishedSet := hSt.2.1
          refine ⟨?_, ?_, ?_⟩
          · simp [releasePendingCount, hest, hrp]
          · simp [releaseConnectedCount, hrc]
          · simp [List.mem_cons, hnoest]
        · intro hSt _
          have hest : c ∉ s.establishedSet := hSt.2.1
          have e1 : releasePendingCount s c (WsEvent.destroy c :: tr) = 1 := by
            simp [releasePendingCount, hest, hrp]
          have e2 : releaseConnectedCount s c (WsEvent.destroy c :: tr) = 0 := by
            simp [releaseConnectedCount, hrc]
          rw [e1, e2]
          refine ⟨rfl, ?_, ?_⟩
          · intro h01
            exact absurd h01 (by omega)
          · intro hmem
            exact absurd (by simpa [List.mem_cons] using hmem) hnoest
    · -- the head event concerns a different session
      have hdne : e ≠ WsEvent.destroy c := by
        intro hh
        exact hsid (by simp [hh, WsEvent.sid])
      have hcne : e ≠ WsEvent.closed c := by
        intro hh
        exact hsid (by simp [hh, WsEvent.sid])
      have hene : e ≠ WsEvent.established c := by
        intro hh
        exact hsid (by simp [hh, WsEvent.sid])
      obtain ⟨hma, hme, hmc, hmd⟩ := mem_step_of_ne s e c hsid
      have hrpeq : releasePendingCount s c (e :: tr)
          = releasePendingCount (ws_step s e) c tr := by
        simp [releasePendingCount, hdne]
      have hrceq : releaseConnectedCount s c (e :: tr)
          = releaseConnectedCount (ws_step s e) c tr := by
        simp [releaseConnectedCount, hcne]
      have hdne2 : ¬WsEvent.destroy c = e := fun hh => hdne hh.symm
      have hene2 : ¬WsEvent.established c = e := fun hh => hene hh.symm
      have hdmem : (WsEvent.destroy c ∈ e :: tr) ↔ (WsEvent.destroy c ∈ tr) := by
        simp [List.mem_cons, hdne2]
      have hemem : (WsEvent.established c ∈ e :: tr) ↔ (WsEvent.established c ∈ tr) := by
        simp [List.mem_cons, hene2]
      refine ⟨?_, ?_, ?_, ?_, ?_⟩
      · intro hSt
        obtain ⟨h1, h2, h3, h4⟩ := ihD (by rwa [StDead, hmd])
        exact ⟨by rwa [hrpeq], by rwa [hrceq], by rwa [hdmem], by rwa [hemem]⟩
      · intro hSt
        obtain ⟨h1, h2, h3⟩ := ihC (by
          obtain ⟨a1, a2, a3, a4⟩ := hSt
          exact ⟨hma.mpr a1, hme.mpr a2, hmc.mpr a3, fun hx => a4 (hmd.mp hx)⟩)
        exact ⟨by rwa [hrpeq], by rwa [hrceq], by rwa [hemem]⟩
      · intro hSt
        obtain ⟨⟨h1, h2, h3⟩, h4⟩ := ihE (by
          obtain ⟨a1, a2, a3, a4⟩ := hSt
          exact ⟨hma.mpr a1, hme.mpr a2, fun hx => a3 (hmc.mp hx), fun hx => a4 (hmd.mp hx)⟩)
        refine ⟨⟨by rwa [hrpeq], by rwa [hrceq], ?_⟩, by rwa [hemem]⟩
        intro hdest
        rw [hrceq]
        exact h3 (hdmem.mp hdest)
      · intro hSt hdest
        obtain ⟨h1, h2⟩ := ihP (by
          obtain ⟨a1, a2, a3, a4⟩ := hSt
          exact ⟨hma.mpr a1, fun hx => a2 (hme.mp hx), fun hx => a3 (hmc.mp hx),
            fun hx => a4 (hmd.mp hx)⟩) (hdmem.mp hdest)
        rw [hrpeq, hrceq, hemem]
        exact ⟨h1, h2⟩
      · intro hSt hdest
        obtain ⟨h1, h2⟩ := ihF (by
          obtain ⟨a1, a2, a3, a4⟩ := hSt
          exact ⟨fun hx => a1 (hma.mp hx), fun hx => a2 (hme.mp hx), fun hx => a3 (hmc.mp hx),
            fun hx => a4 (hmd.mp hx)⟩) (hdmem.mp hdest)
        rw [hrpeq, hrceq, hemem]
        exact ⟨h1, h2⟩

/-- C2: for every admitted connection whose lifecycle completes (its
WSI_DESTROY event appears in the well-formed trace), exactly one releasing
decrement is performed on its behalf: either the CLOSED-with-counted
decrement of `ws_connected_client_count` or the WSI_DESTROY-without-counted
decrement of `ws_pending_client_count` — never both, never zero, never two —
and the per-session `counted` flag (set exactly by ESTABLISHED, acting as a
single-use token) decides which of the two counters is decremented.  At each
releasing event the corresponding counter really does decrease by one.
(ESTABLISHED's own paired `pending--`/`connected++` transfers the admitted
slot between the two counters and releases nothing.) -/
theorem ws_single_release_per_connection (tr : List WsEvent) (c : Nat)
    (h : WFTrace ws_init tr) (hd : WsEvent.destroy c ∈ tr) :
    releasePendingCount ws_init c tr + releaseConnectedCount ws_init c tr = 1
    ∧ (releaseConnectedCount ws_init c tr = 1 ↔ WsEvent.established c ∈ tr)
    ∧ (∀ k, k < tr.length →
        tr.getD k (WsEvent.filter 0) = WsEvent.destroy c →
        c ∉ (ws_run ws_init (tr.take k)).establishedSet →
        (ws_run ws_init (tr.take (k + 1))).ws_pending_client_count + 1
          = (ws_run ws_init (tr.take k)).ws_pending_client_count)
    ∧ (∀ k, k < tr.length →
        tr.getD k (WsEvent.filter 0) = WsEvent.closed c →
        c ∈ (ws_run ws_init (tr.take k)).establishedSet →
        (ws_run ws_init (tr.take (k + 1))).ws_connected_client_count + 1
          = (ws_run ws_init (tr.take k)).ws_connected_client_count) := by
  have hfresh : StFresh ws_init c := by
    simp [StFresh, ws_init]
  have hmain := (release_counts tr ws_init c h).2.2.2.2 hfresh hd
  have hinv : ∀ k, WsInv (ws_run ws_init (tr.take k)) := fun k =>
    wsinv_run _ _ wsinv_init (wftrace_take tr ws_init h k)
  refine ⟨hmain.1, hmain.2, ?_, ?_⟩
  · intro k hk hev hcnot
    have hstep := ws_run_take_succ tr ws_init k hk
    have hen := enabled_at_index tr ws_init h k hk
    rw [hev] at hen hstep
    have hsafe := decrement_safe_of_inv _ _ (hinv k) hen
    have hpos : 0 < (ws_run ws_init (tr.take k)).ws_pending_client_count := hsafe hcnot
    rw [hstep]
    simp only [ws_step, if_neg hcnot, if_pos hpos]
    omega
  · intro k hk hev hcmem
    have hstep := ws_run_take_succ tr ws_init k hk
    have hen := enabled_at_index tr ws_init h k hk
    rw [hev] at hen hstep
    have hsafe := decrement_safe_of_inv _ _ (hinv k) hen
    have hpos : 0 < (ws_run ws_init (tr.take k)).ws_connected_client_count := hsafe hcmem
    rw [hstep]
    simp only [ws_step, if_pos hcmem, if_pos hpos]
    omega

/-- Witness for C2: a complete lifecycle trace for session 0, with a second
never-established session 1, evaluated. -/
theorem ws_single_release_per_connection_witness :
    WFTrace ws_init
      [WsEvent.filter 0, WsEvent.established 0, WsEvent.filter 1, WsEvent.closed 0,
        WsEvent.destroy 0, WsEvent.destroy 1]
    ∧ WsEvent.destroy 0 ∈
      [WsEvent.filter 0, WsEvent.established 0, WsEvent.filter 1, WsEvent.closed 0,
        WsEvent.destroy 0, WsEvent.destroy 1]
    ∧ releasePendingCount ws_init 0
        [WsEvent.filter 0, WsEvent.established 0, WsEvent.filter 1, WsEvent.closed 0,
          WsEvent.destroy 0, WsEvent.destroy 1]
      + releaseConnectedCount ws_init 0
        [WsEvent.filter 0, WsEvent.established 0, WsEvent.filter 1, WsEvent.closed 0,
          WsEvent.destroy 0, WsEvent.destroy 1] = 1 :=
  ⟨by decide, by decide,
    (ws_single_release_per_connection _ 0 (by decide) (by decide)).1⟩

lemma take_dropLast {α : Type} (l : List α) (k : Nat) (hk : k ≤ l.length - 1) :
    l.dropLast.take k = l.take k := by
  rw [List.dropLast_eq_take, List.take_take]
  congr 1
  omega

lemma json_dumpb_some (j : Json) (out_size : Nat) (s : String)
    (h : json_dumpb j out_size = some s) :
    s = j.dump ∧ s.utf8ByteSize ≤ out_size := by
  simp only [json_dumpb] at h
  split at h
  · rename_i hf
    cases h
    exact ⟨rfl, hf⟩
  · cases h

lemma fitLoopAux_spec (key : String) (out_size : Nat) (elems : List Json) :
    ∀ k : Nat,
      (fitLoopAux key out_size elems k).attempts ≤ k + 1
      ∧ (fitLoopAux key out_size elems k).kept ≤ k
      ∧ ((fitLoopAux key out_size elems k).out = ""
          ∨ ((fitLoopAux key out_size elems k).out
              = (Json.obj [(key,
                  Json.arr (elems.take (fitLoopAux key out_size elems k).kept))]).dump
            ∧ (fitLoopAux key out_size elems k).out.utf8ByteSize ≤ out_size)) := by
  intro k
  induction k with
  | zero =>
    cases hdump : json_dumpb (Json.obj [(key, Json.arr (elems.take 0))]) out_size with
    | none =>
      simp only [List.take_zero] at hdump
      simp [fitLoopAux, List.take_zero, hdump]
    | some s =>
      obtain ⟨hs, hfits⟩ := json_dumpb_some _ _ _ hdump
      simp only [List.take_zero] at hdump
      simp only [fitLoopAux, List.take_zero, hdump]
      refine ⟨by omega, by omega, Or.inr ⟨?_, hfits⟩⟩
      simpa using hs
  | succ k ih =>
    cases hdump : json_dumpb (Json.obj [(key, Json.arr (elems.take (k + 1)))]) out_size with
    | some s =>
      obtain ⟨hs, hfits⟩ := json_dumpb_some _ _ _ hdump
      simp only [fitLoopAux, hdump]
      exact ⟨by omega, by omega, Or.inr ⟨hs, hfits⟩⟩
    | none =>
      obtain ⟨h1, h2, h3⟩ := ih
      simp only [fitLoopAux, hdump]
      refine ⟨?_, ?_, ?_⟩
      · show (fitLoopAux key out_size elems k).attempts + 1 ≤ k + 1 + 1
        omega
      · show (fitLoopAux key out_size elems k).kept ≤ k + 1
        omega
      · exact h3

lemma fitLoop_full (key : String) (elems : List Json) (out_size : Nat) (s : String)
    (h : json_dumpb (Json.obj [(key, Json.arr elems)]) out_size = some s) :
    fitLoop key elems out_size
      = { out := s, kept := elems.length, attempts := 1, truncated := false } := by
  unfold fitLoop
  have h2 : json_dumpb (Json.obj [(key, Json.arr (elems.take elems.length))]) out_size
      = some s := by
    rwa [List.take_length]
  cases hn : elems.length with
  | zero =>
    rw [hn] at h2
    simp only [List.take_zero] at h2
    simp [fitLoopAux, List.take_zero, h2, hn]
  | succ k =>
    rw [hn] at h2
    simp [fitLoopAux, h2, hn]

/-- C3: both variable-shape builders run the truncate-and-retry loop: at most
n+1 serialization attempts for an n-element collection; a non-empty result is
exactly the compact serialization of the JSON document whose array holds the
first `kept` elements of the logical collection — whole elements, never a
partial or malformed one — and fits the buffer; and when the full collection
fits, the builder returns it after a single attempt with the truncation flag
clear, dropping zero elements. -/
theorem builders_truncate_and_retry (names : List String) (mounts : List storage_info)
    (out_size : Nat) :
    ((build_process_list_json names out_size).attempts ≤ names.length + 1
      ∧ (build_process_list_json names out_size).kept ≤ names.length
      ∧ ((build_process_list_json names out_size).out = ""
          ∨ ((build_process_list_json names out_size).out
              = (Json.obj [("processes", Json.arr ((names.take
                  (build_process_list_json names out_size).kept).map Json.str))]).dump
            ∧ (build_process_list_json names out_size).out.utf8ByteSize ≤ out_size))
      ∧ (∀ s, json_dumpb (Json.obj [("processes", Json.arr (names.map Json.str))]) out_size
            = some s →
          build_process_list_json names out_size
            = { out := s, kept := names.length, attempts := 1, truncated := false }))
    ∧ ((build_storage_json mounts out_size).attempts ≤ mounts.length + 1
      ∧ (build_storage_json mounts out_size).kept ≤ mounts.length
      ∧ ((build_storage_json mounts out_size).out = ""
          ∨ ((build_storage_json mounts out_size).out
              = (Json.obj [("storage", Json.arr ((mounts.take
                  (build_storage_json mounts out_size).kept).map storage_obj))]).dump
            ∧ (build_storage_json mounts out_size).out.utf8ByteSize ≤ out_size))
      ∧ (∀ s, json_dumpb (Json.obj [("storage", Json.arr (mounts.map storage_obj))]) out_size
            = some s →
          build_storage_json mounts out_size
            = { out := s, kept := mounts.length, attempts := 1, truncated := false })) := by
  have e1 : build_process_list_json names out_size
      = fitLoopAux "processes" out_size (names.map Json.str) names.length := by
    simp [build_process_list_json, fitLoop]
  have e2 : build_storage_json mounts out_size
      = fitLoopAux "storage" out_size (mounts.map storage_obj) mounts.length := by
    simp [build_storage_json, fitLoop]
  obtain ⟨p1, p2, p3⟩ :=
    fitLoopAux_spec "processes" out_size (names.map Json.str) names.length
  obtain ⟨q1, q2, q3⟩ :=
    fitLoopAux_spec "storage" out_size (mounts.map storage_obj) mounts.length
  constructor
  · refine ⟨?_, ?_, ?_, ?_⟩
    · rw [e1]
      exact p1
    · rw [e1]
      exact p2
    · rw [e1, List.map_take]
      exact p3
    · intro s hs
      have hfull := fitLoop_full "processes" (names.map Json.str) out_size s hs
      simpa [build_process_list_json] using hfull
  · refine ⟨?_, ?_, ?_, ?_⟩
    · rw [e2]
      exact q1
    · rw [e2]
      exact q2
    · rw [e2, List.map_take]
      exact q3
    · intro s hs
      have hfull := fitLoop_full "storage" (mounts.map storage_obj) out_size s hs
      simpa [build_storage_json] using hfull

/-- Witness for C3: a two-name collection that fits a 64-byte buffer is
serialized whole in one attempt, with zero elements dropped. -/
theorem builders_truncate_and_retry_witness :
    build_process_list_json ["init", "sh"] 64
      = { out := (Json.obj [("processes",
            Json.arr [Json.str "init", Json.str "sh"])]).dump,
          kept := 2, attempts := 1, truncated := false } :=
  (builders_truncate_and_retry ["init", "sh"] [] 64).1.2.2.2 _ rfl

/-- C9: an inbound message whose byte length is 0 or at least 128 is ignored
entirely by the RECEIVE handler — no reply is sent and the per-session state
(monitoring name, enabled flag, CPU baseline, cached pid, accounting flag)
is unchanged — so a monitor command whose JSON encoding is 128 bytes or
longer can never enable monitoring. -/
theorem oversize_message_ignored (pss : per_session_data) (len : Nat)
    (parsed : Option Json) (h : len = 0 ∨ 128 ≤ len) :
    ws_receive pss len parsed = (pss, none) := by
  unfold ws_receive
  rw [if_pos h]

/-- Witness for C9: a 128-byte monitor command is dropped with the session
untouched. -/
theorem oversize_message_ignored_witness :
    ((128 : Nat) = 0 ∨ 128 ≤ (128 : Nat))
    ∧ ws_receive fresh_pss 128
        (some (Json.obj [("monitor",
          Json.str "some_process_with_a_name_this_long_is_never_installed")]))
      = (fresh_pss, none) :=
  ⟨by decide, oversize_message_ignored fresh_pss 128 _ (by decide)⟩

/-- C4 (divergence record): no branch of the RECEIVE handler produces the
system-identity reply: the reply is never `systemInfo`, and the concrete
inbound command with a `system_info: true` field (20 bytes) yields no reply
and an unchanged session, even though `build_system_info_resp` — the
{"system": ...} document of build_system_info_json — exists.  The
dispatcher recognizes only list_processes, storage and monitor. -/
theorem system_info_command_not_dispatched :
    (∀ (pss : per_session_data) (len : Nat) (parsed : Option Json),
      (ws_receive pss len parsed).2 ≠ some WsReply.systemInfo)
    ∧ (∀ pss : per_session_data,
        ws_receive pss 20 (some (Json.obj [("system_info", Json.bool true)]))
          = (pss, none))
    ∧ (∀ info : system_info,
        (build_system_info_resp info).get "system" ≠ none) := by
  refine ⟨?_, ?_, ?_⟩
  · intro pss len parsed
    unfold ws_receive
    split
    · simp
    · cases parsed with
      | none => simp
      | some root =>
        cases root with
        | str s => simp
        | int n => simp
        | real q => simp
        | bool b => simp
        | arr xs => simp
        | obj fields =>
          simp only
          split
          · simp
          · split
            · simp
            · split <;> (try split) <;> simp
  · intro pss
    rfl
  · intro info
    simp [build_system_info_resp, Json.get]

lemma find_pid_by_comm_comm (env : ProcEnv) (name : String)
    (h : find_pid_by_comm env name ≠ 0) :
    env.comm (find_pid_by_comm env name) = some name := by
  unfold find_pid_by_comm at h ⊢
  by_cases hname : name = ""
  · simp [hname] at h
  · simp only [if_neg hname] at h ⊢
    cases hfind : env.pids.find? (fun pid =>
        decide (0 < pid) && comm_matches_for_find env name pid) with
    | none => simp [hfind] at h
    | some p =>
      simp only [hfind]
      show env.comm p = some name
      have hp := List.find?_some hfind
      simp only [Bool.and_eq_true, decide_eq_true_eq] at hp
      have hm := hp.2
      unfold comm_matches_for_find at hm
      cases hc : env.comm p with
      | none =>
        rw [hc] at hm
        cases hm
      | some buf =>
        rw [hc] at hm
        have hm2 : (if buf.data.head? = some leftBracketChar then false
            else buf == name) = true := hm
        split at hm2
        · cases hm2
        · rw [show buf = name from beq_iff_eq.mp hm2]

lemma pid_matches_comm_comm (env : ProcEnv) (p : Nat) (name : String)
    (h : pid_matches_comm env p name = true) :
    env.comm p = some name := by
  unfold pid_matches_comm at h
  split at h
  · cases h
  · cases hc : env.comm p with
    | none =>
      rw [hc] at h
      cases h
    | some buf =>
      rw [hc] at h
      have h2 : (buf == name) = true := h
      rw [show buf = name from beq_iff_eq.mp h2]

lemma resolve_monitored_pid_comm (env : ProcEnv) (name : String)
    (pss : per_session_data) (h : (resolve_monitored_pid env name pss).2 ≠ 0) :
    env.comm (resolve_monitored_pid env name pss).2 = some name := by
  by_cases h0 : pss.proc_pid = 0
  · simp only [resolve_monitored_pid, h0, if_true] at h ⊢
    exact find_pid_by_comm_comm env name h
  · by_cases hm : pid_matches_comm env pss.proc_pid name = true
    · simp only [resolve_monitored_pid, if_neg h0, hm, if_true] at h ⊢
      exact pid_matches_comm_comm env pss.proc_pid name hm
    · simp only [resolve_monitored_pid, if_neg h0, hm, Bool.false_eq_true,
        if_false] at h ⊢
      exact find_pid_by_comm_comm env name h

/-- C7: the pid used by read_process_stats is trustworthy: whenever the
resolution prologue yields a non-zero pid, that pid's comm equals the
monitored name (a cached pid is re-validated with pid_matches_comm before
reuse); on a re-validation mismatch the cache and the CPU baseline are
cleared and the pid re-resolved by scanning; and the pid reported in the
outputs of read_process_stats, when non-zero, also names the monitored
process. -/
theorem cached_pid_revalidated (env : ProcEnv) (name : String)
    (pss : per_session_data) :
    ((resolve_monitored_pid env name pss).2 ≠ 0 →
      env.comm (resolve_monitored_pid env name pss).2 = some name)
    ∧ (pss.proc_pid ≠ 0 → pid_matches_comm env pss.proc_pid name = false →
        (resolve_monitored_pid env name pss).1.prev_proc_utime = 0
        ∧ (resolve_monitored_pid env name pss).1.prev_proc_stime = 0
        ∧ (resolve_monitored_pid env name pss).1.prev_proc_sample_mono_ms = 0
        ∧ (resolve_monitored_pid env name pss).1.proc_pid
            = find_pid_by_comm env name)
    ∧ (∀ (now : Nat) (clk : Int) (N : Nat),
        (read_process_stats env name pss now clk N).2.2.pid ≠ 0 →
        env.comm (read_process_stats env name pss now clk N).2.2.pid
          = some name) := by
  refine ⟨resolve_monitored_pid_comm env name pss, ?_, ?_⟩
  · intro h0 hm
    have hm2 : ¬pid_matches_comm env pss.proc_pid name = true := by
      rw [hm]
      simp
    simp only [resolve_monitored_pid, if_neg h0, hm2, if_false]
    exact ⟨rfl, rfl, rfl, rfl⟩
  · intro now clk N hpid
    by_cases hclk : clk ≤ 0
    · simp only [read_process_stats, if_pos hclk] at hpid
      simp at hpid
    · simp only [read_process_stats, if_neg hclk] at hpid ⊢
      by_cases hres : (resolve_monitored_pid env name pss).2 = 0
      · simp only [hres, if_true] at hpid
        simp at hpid
      · simp only [if_neg hres] at hpid ⊢
        cases hstat : env.statRead (resolve_monitored_pid env name pss).2 with
        | noFile =>
          simp only [hstat] at hpid ⊢
          exact resolve_monitored_pid_comm env name pss hres
        | emptyFile =>
          simp only [hstat] at hpid ⊢
          exact resolve_monitored_pid_comm env name pss hres
        | badFormat =>
          simp only [hstat] at hpid ⊢
          exact resolve_monitored_pid_comm env name pss hres
        | ok u s =>
          simp only [hstat] at hpid ⊢
          split
          · exact resolve_monitored_pid_comm env name pss hres
          · split
            · exact resolve_monitored_pid_comm env name pss hres
            · exact resolve_monitored_pid_comm env name pss hres

/-- Witness for C7: resolving "init" in the demo environment yields pid 5,
whose comm is the monitored name. -/
theorem cached_pid_revalidated_witness :
    (resolve_monitored_pid demo_env "init" fresh_pss).2 ≠ 0
    ∧ demo_env.comm (resolve_monitored_pid demo_env "init" fresh_pss).2
        = some "init" :=
  ⟨by decide, (cached_pid_revalidated demo_env "init" fresh_pss).1 (by decide)⟩

/-- C8: when no process id resolves for the monitored name, read_process_stats
zeroes the per-session CPU baseline (prev utime, prev stime, prev sample
time, cached pid) and returns found = false; the snapshot document then
carries an "error" object of type process_not_found with the message naming
the process in single quotes, and no "proc" key — the snapshot itself is
still produced. -/
theorem process_not_found_shape (env : ProcEnv) (stats : sys_stats)
    (N conn maxc : Nat) (pss : per_session_data) (clk : Int)
    (hen : pss.proc_enabled = true)
    (hclk : 0 < clk)
    (hres : (resolve_monitored_pid env pss.proc_name pss).2 = 0) :
    (read_process_stats env pss.proc_name pss stats.monotonic_ms clk N).1 = false
    ∧ (read_process_stats env pss.proc_name pss
        stats.monotonic_ms clk N).2.1.prev_proc_utime = 0
    ∧ (read_process_stats env pss.proc_name pss
        stats.monotonic_ms clk N).2.1.prev_proc_stime = 0
    ∧ (read_process_stats env pss.proc_name pss
        stats.monotonic_ms clk N).2.1.prev_proc_sample_mono_ms = 0
    ∧ (read_process_stats env pss.proc_name pss
        stats.monotonic_ms clk N).2.1.proc_pid = 0
    ∧ (build_stats_resp env stats N conn maxc pss clk).1.get "error"
        = some (Json.obj [("type", Json.str "process_not_found"),
            ("message", Json.str ("Process " ++ squote ++ pss.proc_name
              ++ squote ++ " not found"))])
    ∧ (build_stats_resp env stats N conn maxc pss clk).1.get "proc" = none := by
  have hnle : ¬clk ≤ 0 := by omega
  have hr1 : (read_process_stats env pss.proc_name pss
      stats.monotonic_ms clk N).1 = false := by
    simp only [read_process_stats, if_neg hnle, hres, if_true]
  refine ⟨hr1, ?_, ?_, ?_, ?_, ?_, ?_⟩
  · simp only [read_process_stats, if_neg hnle, hres, if_true]
  · simp only [read_process_stats, if_neg hnle, hres, if_true]
  · simp only [read_process_stats, if_neg hnle, hres, if_true]
  · simp only [read_process_stats, if_neg hnle, hres, if_true]
  · simp only [build_stats_resp, hen, if_true, hr1, Bool.false_eq_true, if_false]
    rfl
  · simp only [build_stats_resp, hen, if_true, hr1, Bool.false_eq_true, if_false]
    rfl

/-- Witness for C8: the spec scenario — monitoring "nonexistent_xyz" in an
empty environment — produces the process_not_found error object. -/
theorem process_not_found_shape_witness :
    (build_stats_resp empty_env demo_stats 4 3 10 monitoring_pss 100).1.get "error"
      = some (Json.obj [("type", Json.str "process_not_found"),
          ("message", Json.str ("Process " ++ squote ++ "nonexistent_xyz"
            ++ squote ++ " not found"))]) :=
  (process_not_found_shape empty_env demo_stats 4 3 10 monitoring_pss 100
    rfl (by decide) (by decide)).2.2.2.2.2.1

lemma read_process_stats_pid_of_found (env : ProcEnv) (name : String)
    (pss : per_session_data) (now : Nat) (clk : Int) (N : Nat)
    (h : (read_process_stats env name pss now clk N).1 = true) :
    (read_process_stats env name pss now clk N).2.2.pid
      = (resolve_monitored_pid env name pss).2
    ∧ (resolve_monitored_pid env name pss).2 ≠ 0 := by
  by_cases hclk : clk ≤ 0
  · simp only [read_process_stats, if_pos hclk] at h
    cases h
  · simp only [read_process_stats, if_neg hclk] at h ⊢
    by_cases hres : (resolve_monitored_pid env name pss).2 = 0
    · simp only [hres, if_true] at h
      cases h
    · simp only [if_neg hres] at h ⊢
      cases hstat : env.statRead (resolve_monitored_pid env name pss).2 with
    | noFile =>
      simp only [hstat] at h
      cases h
    | emptyFile =>
      simp only [hstat] at h
      cases h
    | badFormat =>
      simp only [hstat] at h
      cases h
    | ok u s =>
      simp only [hstat]
      refine ⟨?_, hres⟩
      split
      · rfl
      · split
        · rfl
        · rfl

/-- C10: whenever monitoring is enabled and the monitored process is found,
the "proc" sub-object of the snapshot carries, besides
name/cpu/rss_kb/pss_kb/uss_kb, a "pid" field equal to the resolved process
id of the monitored process (which is non-zero and names the monitored
process). -/
theorem proc_object_contains_pid (env : ProcEnv) (stats : sys_stats)
    (N conn maxc : Nat) (pss : per_session_data) (clk : Int)
    (hen : pss.proc_enabled = true)
    (hfound : (read_process_stats env pss.proc_name pss
        stats.monotonic_ms clk N).1 = true) :
    (build_stats_resp env stats N conn maxc pss clk).1.get "proc"
      = some (Json.obj
          [("name", Json.str pss.proc_name),
            ("cpu", Json.real (read_process_stats env pss.proc_name pss
              stats.monotonic_ms clk N).2.2.cpu),
            ("rss_kb", Json.int (read_process_stats env pss.proc_name pss
              stats.monotonic_ms clk N).2.2.rss_kb),
            ("pss_kb", Json.int (read_process_stats env pss.proc_name pss
              stats.monotonic_ms clk N).2.2.pss_kb),
            ("uss_kb", Json.int (read_process_stats env pss.proc_name pss
              stats.monotonic_ms clk N).2.2.uss_kb),
            ("pid", Json.int (read_process_stats env pss.proc_name pss
              stats.monotonic_ms clk N).2.2.pid)])
    ∧ (read_process_stats env pss.proc_name pss stats.monotonic_ms clk N).2.2.pid
        = (resolve_monitored_pid env pss.proc_name pss).2
    ∧ (read_process_stats env pss.proc_name pss stats.monotonic_ms clk N).2.2.pid
        ≠ 0 := by
  obtain ⟨hpid, hnz⟩ := read_process_stats_pid_of_found env pss.proc_name pss
    stats.monotonic_ms clk N hfound
  refine ⟨?_, hpid, by rw [hpid]; exact hnz⟩
  simp only [build_stats_resp, hen, if_true, hfound]
  rfl

/-- Witness for C10: in the demo environment the "proc" object carries
pid 5, the resolved id of "init". -/
theorem proc_object_contains_pid_witness :
    (build_stats_resp demo_env demo_stats 4 3 10 init_pss 100).1.get "proc"
      = some (Json.obj
          [("name", Json.str "init"),
            ("cpu", Json.real 0),
            ("rss_kb", Json.int 1024),
            ("pss_kb", Json.int 700),
            ("uss_kb", Json.int 500),
            ("pid", Json.int 5)]) :=
  (proc_object_contains_pid demo_env demo_stats 4 3 10 init_pss 100
    rfl (by decide)).1

lemma read_process_stats_cpu_formula (env : ProcEnv) (name : String)
    (pss : per_session_data) (clk : Int) (N : Nat) (C Tms u s : Nat)
    (hclk : 0 < clk)
    (hpid : pss.proc_pid ≠ 0)
    (hmatch : pid_matches_comm env pss.proc_pid name = true)
    (hstat : env.statRead pss.proc_pid = StatRead.ok u s)
    (hsum : u + s = pss.prev_proc_utime + pss.prev_proc_stime + C)
    (hbase : pss.prev_proc_sample_mono_ms ≠ 0)
    (hT : 0 < Tms) :
    (read_process_stats env name pss (pss.prev_proc_sample_mono_ms + Tms)
        clk N).2.2.cpu
      = ((C : Rat) / (clk : Rat) / ((Tms : Rat) / 1000) * 100) / (N : Rat) := by
  have hnle : ¬clk ≤ 0 := by omega
  have hresolve : resolve_monitored_pid env name pss = (pss, pss.proc_pid) := by
    simp only [resolve_monitored_pid, if_neg hpid, hmatch, if_true]
  have hnlt : ¬(u + s < pss.prev_proc_utime + pss.prev_proc_stime) := by omega
  have hntime : ¬(pss.prev_proc_sample_mono_ms + Tms
      ≤ pss.prev_proc_sample_mono_ms) := by omega
  have hdj : u + s - (pss.prev_proc_utime + pss.prev_proc_stime) = C := by omega
  have hdt : pss.prev_proc_sample_mono_ms + Tms - pss.prev_proc_sample_mono_ms
      = Tms := by omega
  have hds : (0 : Rat) < (Tms : Rat) / 1000 := by
    have : (0 : Rat) < (Tms : Rat) := by exact_mod_cast hT
    positivity
  simp only [read_process_stats, if_neg hnle, hresolve, if_neg hpid, hstat,
    hbase, if_false, hnlt, hntime, or_self, if_neg, hdj, hdt, if_pos hds]

/-- C6: for a monitored process with an established baseline whose cumulative
utime+stime grows by exactly C jiffies between two samples Tms > 0
monotonic milliseconds apart, with clk_tck ticks per second and N cores,
the reported percentage is exactly C / clk_tck / (Tms/1000) / 1 * 100 / N
(exact rational arithmetic standing in for the double computation). -/
theorem proc_cpu_percentage_formula (env : ProcEnv) (name : String)
    (pss : per_session_data) (clk : Int) (N : Nat) (C Tms u s : Nat)
    (hclk : 0 < clk)
    (hpid : pss.proc_pid ≠ 0)
    (hmatch : pid_matches_comm env pss.proc_pid name = true)
    (hstat : env.statRead pss.proc_pid = StatRead.ok u s)
    (hsum : u + s = pss.prev_proc_utime + pss.prev_proc_stime + C)
    (hbase : pss.prev_proc_sample_mono_ms ≠ 0)
    (hT : 0 < Tms) :
    (read_process_stats env name pss (pss.prev_proc_sample_mono_ms + Tms)
        clk N).2.2.cpu
      = ((C : Rat) / (clk : Rat) / ((Tms : Rat) / 1000) * 100) / (N : Rat) :=
  read_process_stats_cpu_formula env name pss clk N C Tms u s
    hclk hpid hmatch hstat hsum hbase hT

/-- Witness for C6: 22 jiffies over 2 seconds at 100 ticks/sec on 4 cores is
22/100/2*100/4 = 11/4 percent. -/
theorem proc_cpu_percentage_formula_witness :
    (read_process_stats demo_env "init" baseline_pss (1000 + 2000)
        100 4).2.2.cpu
      = (((22 : Nat) : Rat) / ((100 : Int) : Rat)
          / (((2000 : Nat) : Rat) / 1000) * 100) / ((4 : Nat) : Rat) :=
  proc_cpu_percentage_formula demo_env "init" baseline_pss 100 4 22 2000 30 12
    (by decide) (by decide) (by decide) (by decide) (by decide) (by decide)
    (by decide)

lemma read_cpu_stats_baseline (b : CpuBaseline) (r : CpuReading) :
    (read_cpu_stats b r).1
      = { prev_idle := r.idle_time
          prev_total := r.total_time
          initialized := true } := by
  simp only [read_cpu_stats]
  split
  · rfl
  · split
    · rfl
    · rfl

lemma read_cpu_stats_reset_reports_zero (b : CpuBaseline) (r : CpuReading)
    (hinit : b.initialized = true)
    (hdec : r.idle_time < b.prev_idle ∨ r.total_time < b.prev_total) :
    (read_cpu_stats b r).2 = 0 := by
  simp only [read_cpu_stats]
  rw [if_neg (by simp [hinit]), if_pos hdec]

lemma read_cpu_stats_le_100 (b : CpuBaseline) (r : CpuReading) :
    (read_cpu_stats b r).2 ≤ 100 := by
  simp only [read_cpu_stats]
  split
  · norm_num
  · split
    · norm_num
    · split
      · rename_i hdt
        have hq : (0 : Rat) ≤ ((r.idle_time - b.prev_idle : Nat) : Rat)
            / ((r.total_time - b.prev_total : Nat) : Rat) := by
          apply div_nonneg <;> positivity
        nlinarith [hq]
      · norm_num

lemma read_cpu_stats_nonneg_of_le (r0 r : CpuReading) (hle : CpuReading.le r0 r) :
    0 ≤ (read_cpu_stats
        { prev_idle := r0.idle_time
          prev_total := r0.total_time
          initialized := true } r).2 := by
  obtain ⟨h1, h2, h3, h4, h5, h6, h7, h8⟩ := hle
  have hdle : r.idle_time - r0.idle_time ≤ r.total_time - r0.total_time := by
    simp only [CpuReading.idle_time, CpuReading.total_time] at *
    omega
  simp only [read_cpu_stats]
  split
  · norm_num
  · split
    · norm_num
    · split
      · rename_i hdt
        have hdtpos : (0 : Rat) < ((r.total_time - r0.total_time : Nat) : Rat) := by
          exact_mod_cast hdt
        have hfrac : ((r.idle_time - r0.idle_time : Nat) : Rat)
            / ((r.total_time - r0.total_time : Nat) : Rat) ≤ 1 := by
          rw [div_le_one hdtpos]
          exact_mod_cast hdle
        nlinarith [hfrac]
      · norm_num

lemma run_cpu_bounds (rs : List CpuReading) :
    ∀ r0 : CpuReading, List.Chain CpuReading.le r0 rs →
      ∀ u ∈ (run_cpu_stats
          { prev_idle := r0.idle_time
            prev_total := r0.total_time
            initialized := true } rs).2, 0 ≤ u ∧ u ≤ 100 := by
  induction rs with
  | nil =>
    intro r0 _ u hu
    simp [run_cpu_stats] at hu
  | cons r rest ih =>
    intro r0 hch u hu
    obtain ⟨hle, hch2⟩ := List.chain_cons.mp hch
    simp only [run_cpu_stats] at hu
    rw [List.mem_cons] at hu
    rcases hu with rfl | hu
    · exact ⟨read_cpu_stats_nonneg_of_le r0 r hle, read_cpu_stats_le_100 _ r⟩
    · rw [read_cpu_stats_baseline] at hu
      exact ih r hch2 u hu

lemma run_cpu_bounds_init (rs : List CpuReading)
    (hch : List.Chain' CpuReading.le rs) :
    ∀ u ∈ (run_cpu_stats cpu_baseline_init rs).2, 0 ≤ u ∧ u ≤ 100 := by
  cases rs with
  | nil =>
    intro u hu
    simp [run_cpu_stats] at hu
  | cons r rest =>
    intro u hu
    have hfirst : read_cpu_stats cpu_baseline_init r
        = ({ prev_idle := r.idle_time
             prev_total := r.total_time
             initialized := true }, 0) := by
      simp [read_cpu_stats, cpu_baseline_init]
    simp only [run_cpu_stats] at hu
    rw [List.mem_cons] at hu
    rcases hu with rfl | hu
    · rw [hfirst]
      norm_num
    · rw [hfirst] at hu
      exact run_cpu_bounds rest r hch u hu

lemma proc_cpu_value_nonneg (J : Nat) (clk : Int) (dms : Nat) (N : Nat)
    (hclk : ¬clk ≤ 0) :
    (0 : Rat) ≤ (if (0 : Rat) < ((dms : Nat) : Rat) / 1000 then
        ((J : Rat) / ((clk : Int) : Rat) / (((dms : Nat) : Rat) / 1000) * 100)
          / ((N : Nat) : Rat)
      else 0) := by
  split
  · rename_i hds
    have hclkpos : (0 : Rat) < ((clk : Int) : Rat) := by
      exact_mod_cast (by omega : (0 : Int) < clk)
    apply div_nonneg
    · apply mul_nonneg
      · apply div_nonneg
        · apply div_nonneg
          · positivity
          · exact le_of_lt hclkpos
        · exact le_of_lt hds
      · norm_num
    · positivity
  · exact le_refl 0

lemma read_process_stats_cpu_nonneg (env : ProcEnv) (name : String)
    (pss : per_session_data) (now : Nat) (clk : Int) (N : Nat) :
    0 ≤ (read_process_stats env name pss now clk N).2.2.cpu := by
  by_cases hclk : clk ≤ 0
  · simp [read_process_stats, hclk]
  · simp only [read_process_stats, if_neg hclk]
    by_cases hres : (resolve_monitored_pid env name pss).2 = 0
    · simp [hres]
    · simp only [if_neg hres]
      split
      · norm_num
      · norm_num
      · norm_num
      · split
        · norm_num
        · split
          · norm_num
          · rename_i u s heq h1 h2
            exact proc_cpu_value_nonneg
              (u + s - ((resolve_monitored_pid env name pss).1.prev_proc_utime
                + (resolve_monitored_pid env name pss).1.prev_proc_stime))
              clk (now - (resolve_monitored_pid env name pss).1.prev_proc_sample_mono_ms)
              N hclk

lemma read_process_stats_cpu_le_100 (env : ProcEnv) (name : String)
    (pss : per_session_data) (clk : Int) (N : Nat) (C Tms u s : Nat)
    (hclk : 0 < clk)
    (hpid : pss.proc_pid ≠ 0)
    (hmatch : pid_matches_comm env pss.proc_pid name = true)
    (hstat : env.statRead pss.proc_pid = StatRead.ok u s)
    (hsum : u + s = pss.prev_proc_utime + pss.prev_proc_stime + C)
    (hbase : pss.prev_proc_sample_mono_ms ≠ 0)
    (hT : 0 < Tms)
    (hN : 0 < N)
    (hbound : (C : Rat) ≤ (clk : Rat) * ((Tms : Rat) / 1000) * (N : Rat)) :
    (read_process_stats env name pss (pss.prev_proc_sample_mono_ms + Tms)
        clk N).2.2.cpu ≤ 100 := by
  rw [read_process_stats_cpu_formula env name pss clk N C Tms u s
    hclk hpid hmatch hstat hsum hbase hT]
  have hk : (0 : Rat) < (clk : Rat) := by
    exact_mod_cast (by omega : (0 : Int) < clk)
  have ht : (0 : Rat) < (Tms : Rat) / 1000 := by
    have : (0 : Rat) < (Tms : Rat) := by exact_mod_cast hT
    positivity
  have hn : (0 : Rat) < (N : Rat) := by exact_mod_cast hN
  have hkt : (0 : Rat) < (clk : Rat) * ((Tms : Rat) / 1000) := mul_pos hk ht
  rw [div_le_iff hn, div_div, div_mul_eq_mul_div, div_le_iff hkt]
  nlinarith [hbound, hkt, hn]

/-- C5 counterexample, both halves of the claim.  Aggregate: on a reading
sequence with a decreasing cumulative counter (a partial reset) the guard —
which checks only the two aggregate values — passes, and read_cpu_stats
reports -400, outside [0,100].  Per-process: a 1000-jiffy counter jump
observed 1 ms after the baseline (what the monitor sees after pid reuse by
a same-named process, which passes both the comm re-validation and the
counter-monotonicity guard) makes read_process_stats report 1000000 percent
on one core, above the claimed post-normalization bound 100 and — with
core_count = 1, where the pre- and post-normalization values coincide —
above the claimed pre-normalization bound 100 * core_count as well. -/
theorem read_cpu_stats_negative_counterexample :
    ((run_cpu_stats cpu_baseline_init partial_reset_readings).2.getD 1 0 = -400)
    ∧ ¬(0 ≤ (run_cpu_stats cpu_baseline_init partial_reset_readings).2.getD 1 0)
    ∧ (read_process_stats jump_env "init" jump_pss 1001 100 1).2.2.cpu = 1000000
    ∧ ¬((read_process_stats jump_env "init" jump_pss 1001 100 1).2.2.cpu ≤ 100)
    ∧ ¬((read_process_stats jump_env "init" jump_pss 1001 100 1).2.2.cpu
        ≤ 100 * ((1 : Nat) : Rat)) := by
  have hval : (run_cpu_stats cpu_baseline_init partial_reset_readings).2.getD 1 0
      = -400 := by
    norm_num [partial_reset_readings, run_cpu_stats, read_cpu_stats,
      cpu_baseline_init, CpuReading.idle_time, CpuReading.total_time]
  have hcpu : (read_process_stats jump_env "init" jump_pss 1001 100 1).2.2.cpu
      = 1000000 := by
    have h := read_process_stats_cpu_formula jump_env "init" jump_pss 100 1
      1000 1 600 400 (by decide) (by decide) (by decide) (by decide)
      (by decide) (by decide) (by decide)
    have hv : (((1000 : Nat) : Rat) / ((100 : Int) : Rat)
        / (((1 : Nat) : Rat) / 1000) * 100) / ((1 : Nat) : Rat) = 1000000 := by
      norm_num
    exact h.trans hv
  refine ⟨hval, ?_, hcpu, ?_, ?_⟩
  · rw [hval]
    norm_num
  · rw [hcpu]
    norm_num
  · rw [hcpu]
    norm_num

/-- C5 amended.  Aggregate (read_cpu_stats): the computed usage never
exceeds 100; it lies in [0,100] for every reading sequence whose cumulative
counters are individually non-decreasing; and a reset that decreases either
aggregate value (idle+iowait or the total) is caught by the guard, which
re-baselines and reports 0 — but a partial reset in which neither aggregate
decreases evades the guard and can yield a negative value (see the
counterexample).  Per-process (read_process_stats): the percentage is never
negative; and whenever the observed jiffy delta is at most clk_tck *
elapsed-seconds * core_count — which an unguarded same-name pid-reuse
counter jump can violate, see the counterexample — the post-normalization
value is in [0,100] and the pre-normalization value (the percentage times
the core count) is in [0, 100 * core_count]. -/
theorem cpu_usage_bounds :
    (∀ (b : CpuBaseline) (r : CpuReading), (read_cpu_stats b r).2 ≤ 100)
    ∧ (∀ rs : List CpuReading, List.Chain' CpuReading.le rs →
        ∀ u ∈ (run_cpu_stats cpu_baseline_init rs).2, 0 ≤ u ∧ u ≤ 100)
    ∧ (∀ (b : CpuBaseline) (r : CpuReading), b.initialized = true →
        (r.idle_time < b.prev_idle ∨ r.total_time < b.prev_total) →
        (read_cpu_stats b r).2 = 0
        ∧ (read_cpu_stats b r).1
            = { prev_idle := r.idle_time
                prev_total := r.total_time
                initialized := true })
    ∧ (∀ (env : ProcEnv) (name : String) (pss : per_session_data)
        (now : Nat) (clk : Int) (N : Nat),
        0 ≤ (read_process_stats env name pss now clk N).2.2.cpu)
    ∧ (∀ (env : ProcEnv) (name : String) (pss : per_session_data)
        (clk : Int) (N : Nat) (C Tms u s : Nat),
        0 < clk → pss.proc_pid ≠ 0 →
        pid_matches_comm env pss.proc_pid name = true →
        env.statRead pss.proc_pid = StatRead.ok u s →
        u + s = pss.prev_proc_utime + pss.prev_proc_stime + C →
        pss.prev_proc_sample_mono_ms ≠ 0 → 0 < Tms → 0 < N →
        (C : Rat) ≤ (clk : Rat) * ((Tms : Rat) / 1000) * (N : Rat) →
        (read_process_stats env name pss (pss.prev_proc_sample_mono_ms + Tms)
            clk N).2.2.cpu ≤ 100)
    ∧ (∀ (env : ProcEnv) (name : String) (pss : per_session_data)
        (clk : Int) (N : Nat) (C Tms u s : Nat),
        0 < clk → pss.proc_pid ≠ 0 →
        pid_matches_comm env pss.proc_pid name = true →
        env.statRead pss.proc_pid = StatRead.ok u s →
        u + s = pss.prev_proc_utime + pss.prev_proc_stime + C →
        pss.prev_proc_sample_mono_ms ≠ 0 → 0 < Tms → 0 < N →
        (C : Rat) ≤ (clk : Rat) * ((Tms : Rat) / 1000) * (N : Rat) →
        0 ≤ (read_process_stats env name pss (pss.prev_proc_sample_mono_ms + Tms)
            clk N).2.2.cpu * (N : Rat)
        ∧ (read_process_stats env name pss (pss.prev_proc_sample_mono_ms + Tms)
            clk N).2.2.cpu * (N : Rat) ≤ 100 * (N : Rat)) := by
  refine ⟨read_cpu_stats_le_100, run_cpu_bounds_init, ?_,
    read_process_stats_cpu_nonneg, ?_, ?_⟩
  · intro b r hinit hdec
    exact ⟨read_cpu_stats_reset_reports_zero b r hinit hdec,
      read_cpu_stats_baseline b r⟩
  · intro env name pss clk N C Tms u s h1 h2 h3 h4 h5 h6 h7 h8 h9
    exact read_process_stats_cpu_le_100 env name pss clk N C Tms u s
      h1 h2 h3 h4 h5 h6 h7 h8 h9
  · intro env name pss clk N C Tms u s h1 h2 h3 h4 h5 h6 h7 h8 h9
    have hle := read_process_stats_cpu_le_100 env name pss clk N C Tms u s
      h1 h2 h3 h4 h5 h6 h7 h8 h9
    have hnn := read_process_stats_cpu_nonneg env name pss
      (pss.prev_proc_sample_mono_ms + Tms) clk N
    have hN0 : (0 : Rat) ≤ (N : Rat) := by positivity
    exact ⟨mul_nonneg hnn hN0, mul_le_mul_of_nonneg_right hle hN0⟩

/-- Witness for the amended C5: on a concrete monotone sequence the second
reported value lies in [0,100]. -/
theorem cpu_usage_bounds_witness :
    List.Chain' CpuReading.le monotone_readings
    ∧ (0 ≤ (run_cpu_stats cpu_baseline_init monotone_readings).2.getD 1 0
        ∧ (run_cpu_stats cpu_baseline_init monotone_readings).2.getD 1 0 ≤ 100) :=
  ⟨by simp [monotone_readings, List.chain'_cons, List.chain'_singleton, CpuReading.le],
    cpu_usage_bounds.2.1 monotone_readings
      (by simp [monotone_readings, List.chain'_cons, List.chain'_singleton, CpuReading.le]) _
      (by simp [run_cpu_stats, monotone_readings])⟩
/-- Witness for the C4 divergence record, evaluated at a concrete session. -/
theorem system_info_command_not_dispatched_witness :
    ws_receive fresh_pss 20 (some (Json.obj [("system_info", Json.bool true)]))
      = (fresh_pss, none) :=
  system_info_command_not_dispatched.2.1 fresh_pss
